import Mathlib

set_option maxRecDepth 40000

/-!
# Nova Hub — verification of the packet routing and processing pipeline

A shallow embedding of the nova-hub packet hub (Python/FastAPI/SQLAlchemy) in
Lean 4, together with proofs settling the frozen specification claims.

Conventions of the embedding:

* machine strings are Lean `String`s; Python `str.upper()` / `str.lower()` are
  modelled for the ASCII range (all names handled by the hub are ASCII);
* database tables are Lean lists of row structures; a SQLAlchemy
  `query(...).first()` is `List.find?`, a per-row UPDATE is an in-place
  replacement of the first matching element; `db.commit()` has no separate
  model because every mutation is immediately visible in the state value;
* timestamps (`datetime.now()` / `datetime.utcnow()`) are abstract `Nat` ticks
  passed in as a `now` parameter;
* `hashlib.sha256(b).hexdigest()` is abstracted as a parameter
  `hash : List Nat → String` (the payload is a byte list); every claim about
  checksums only relates the stored checksum to the hash of the stored bytes;
* directories are association lists `List (String × List Nat)` from file name
  to byte contents;
* raised `HTTPException`s become explicitly returned error values; code paths
  that would only be reached by a runtime fault outside the modelled semantics
  (for example formatting a `NULL` bbs_index) return a 500-style error value.
-/

namespace NovaHub

/-- ASCII uppercase of one character, modelling Python `str.upper` on ASCII. -/
def upChar (c : Char) : Char :=
  if 'a' ≤ c ∧ c ≤ 'z' then Char.ofNat (c.toNat - 32) else c

/-- ASCII lowercase of one character, modelling Python `str.lower` on ASCII. -/
def lowChar (c : Char) : Char :=
  if 'A' ≤ c ∧ c ≤ 'Z' then Char.ofNat (c.toNat + 32) else c

/-- `s.upper()` on ASCII strings. -/
def upStr (s : String) : String := String.mk (s.data.map upChar)

/-- `s.lower()` on ASCII strings. -/
def lowStr (s : String) : String := String.mk (s.data.map lowChar)

/-- Python `s.startswith(p)`. -/
def strStarts (s p : String) : Bool := p.data.isPrefixOf s.data

/-- Python `s[n:]`. -/
def strDrop (s : String) (n : Nat) : String := String.mk (s.data.drop n)

/-- One uppercase hexadecimal digit (for values `0..15`). -/
def hexDigit (n : Nat) : Char :=
  if n < 10 then Char.ofNat (48 + n) else Char.ofNat (55 + n)

/-- Python `format(n, "02X")` for the bbs-index range `0..255`. -/
def hex2 (n : Nat) : String := String.mk [hexDigit (n / 16), hexDigit (n % 16)]

def isDigitB (c : Char) : Bool := '0' ≤ c && c ≤ '9'

def isHexUpB (c : Char) : Bool := isDigitB c || ('A' ≤ c && c ≤ 'F')

def digitVal (c : Char) : Nat := c.toNat - 48

/-! ## Packet filename codec — `backend/services/packet_service.py` -/

/-- Result of `parse_packet_filename`. -/
structure PacketInfo where
  league_id : String
  game_type : String
  source_bbs_index : String
  dest_bbs_index : String
  sequence_number : Nat
  deriving Repr, DecidableEq

/-- `parse_packet_filename`: the regex
`^(\d{3})([BF])([0-9A-F]{2})([0-9A-F]{2})\.(\d{3})$` matched against
`filename.upper()`. -/
def parse_packet_filename (filename : String) : Option PacketInfo :=
  match (upStr filename).data with
  | [l1, l2, l3, g, s1, s2, d1, d2, dot, q1, q2, q3] =>
    if isDigitB l1 && isDigitB l2 && isDigitB l3 &&
       (g == 'B' || g == 'F') &&
       isHexUpB s1 && isHexUpB s2 && isHexUpB d1 && isHexUpB d2 &&
       dot == '.' &&
       isDigitB q1 && isDigitB q2 && isDigitB q3 then
      some { league_id := String.mk [l1, l2, l3]
             game_type := String.mk [g]
             source_bbs_index := String.mk [s1, s2]
             dest_bbs_index := String.mk [d1, d2]
             sequence_number := 100 * digitVal q1 + 10 * digitVal q2 + digitVal q3 }
    else none
  | _ => none

/-- `parse_league_id` (`backend/services/league_utils.py`): regex
`^(\d{3})([BF])$` against `league_id.upper()`; the 400 raised on a mismatch is
modelled by `none`. -/
def parse_league_id (league_id : String) : Option (String × String) :=
  match (upStr league_id).data with
  | [a, b, c, g] =>
    if isDigitB a && isDigitB b && isDigitB c && (g == 'B' || g == 'F') then
      some (String.mk [a, b, c], String.mk [g])
    else none
  | _ => none

/-! ## Sequence validator — `app/services/sequence_validator.py` -/

def SEQUENCE_RANGE : Nat := 1000

def WRAP_DETECTION_THRESHOLD : Nat := 500

/-- One entry of the list returned by `SequenceValidator.find_gaps`. -/
structure GapInfo where
  expected_sequence : Nat
  received_sequence : Nat
  gap_size : Nat
  deriving Repr, DecidableEq

/-- Insert into a strictly-sorted list, dropping duplicates. -/
def insSortedDedup (n : Nat) : List Nat → List Nat
  | [] => [n]
  | m :: ms =>
    if n < m then n :: m :: ms
    else if n = m then m :: ms
    else m :: insSortedDedup n ms

/-- Python `sorted(set(l))`. -/
def sortedDedup (l : List Nat) : List Nat := l.foldr insSortedDedup []

/-- The `max_gap` / `wrap_index` scan of `find_gaps`: fold over
`i in range(len(s)-1)` starting from `(0, -1)`, taking the strictly larger gap
`s[i+1] - s[i]`. -/
def maxGapScan (s : List Nat) : Nat × Int :=
  (List.range (s.length - 1)).foldl
    (fun acc i =>
      let gap := s.getD (i + 1) 0 - s.getD i 0
      if gap > acc.1 then (gap, Int.ofNat i) else acc)
    (0, -1)

/-- Gap entries emitted for one consecutive pair `(current, next_seq)` of the
reordered (wrap-aware) view: `gap_size` is computed circularly and each missing
index is taken mod `SEQUENCE_RANGE`. -/
def emitPairWrap (c n : Nat) : List GapInfo :=
  let gap_size := if n > c then n - c - 1 else (SEQUENCE_RANGE - c - 1) + n
  if 0 < gap_size ∧ gap_size < WRAP_DETECTION_THRESHOLD then
    (List.range gap_size).map fun j =>
      { expected_sequence := (c + 1 + j) % SEQUENCE_RANGE
        received_sequence := n
        gap_size := gap_size }
  else []

/-- Gap entries emitted for one consecutive pair in the plain sorted view. -/
def emitPairLinear (c n : Nat) : List GapInfo :=
  let gap_size := n - c - 1
  if 0 < gap_size ∧ gap_size < WRAP_DETECTION_THRESHOLD then
    (List.range gap_size).map fun j =>
      { expected_sequence := c + 1 + j
        received_sequence := n
        gap_size := gap_size }
  else []

/-- `SequenceValidator.find_gaps`. -/
def find_gaps (sequences : List Nat) : List GapInfo :=
  if sequences.length < 2 then []
  else
    let sorted_seqs := sortedDedup sequences
    if sorted_seqs.length < 2 then []
    else
      let scan := maxGapScan sorted_seqs
      let max_gap := scan.1
      let wrap_gap := (SEQUENCE_RANGE - (sorted_seqs.getLast?.getD 0)) + sorted_seqs.headD 0
      if max_gap > WRAP_DETECTION_THRESHOLD ∧ max_gap > wrap_gap then
        let w := scan.2.toNat
        let reordered := sorted_seqs.drop (w + 1) ++ sorted_seqs.take (w + 1)
        ((reordered.zip reordered.tail).map fun p => emitPairWrap p.1 p.2).flatten
      else
        ((sorted_seqs.zip sorted_seqs.tail).map fun p => emitPairLinear p.1 p.2).flatten

example : find_gaps [1, 2, 4] =
    [{ expected_sequence := 3, received_sequence := 4, gap_size := 1 }] := by decide

/-! ## Catalog rows — `app/database.py` / `backend/models` -/

/-- One row of the `packets` table; only the columns the core pipeline reads or
writes are carried.  Payload bytes are a `List Nat`. -/
structure Packet where
  filename : String
  league_id : Nat
  source_bbs_index : String
  dest_bbs_index : String
  sequence_number : Nat
  source_client_id : Option Nat := none
  dest_client_id : Option Nat := none
  file_data : List Nat
  file_size : Nat
  checksum : String
  uploaded_at : Option Nat := none
  downloaded_at : Option Nat := none
  processed_at : Option Nat := none
  processing_run_id : Option Nat := none
  is_processed : Bool := false
  is_downloaded : Bool := false
  deriving Repr, DecidableEq

/-- One row of the `leagues` table. -/
structure League where
  id : Nat
  league_id : String
  game_type : String
  is_active : Bool := true
  deriving Repr, DecidableEq

/-- One row of the `league_memberships` table (`bbs_index` is nullable in the
database and enforced in the application). -/
structure LeagueMembership where
  client_id : Nat
  league_id : Nat
  is_active : Bool := true
  bbs_index : Option Nat := none
  deriving Repr, DecidableEq

/-- One row of the `processing_runs` table. -/
structure ProcessingRun where
  id : Nat
  status : String := "running"
  completed_at : Option Nat := none
  packets_processed : Nat := 0
  error_message : Option String := none
  dosemu_log : String := ""
  deriving Repr, DecidableEq

/-- One row of the `processing_run_files` table. -/
structure ProcessingRunFile where
  processing_run_id : Nat
  file_type : String
  filename : String
  file_data : String
  file_size : Nat
  deriving Repr, DecidableEq

/-- One row of the `sequence_alerts` table (the human-readable `description`
text built by Python string formatting is abstracted to a fixed tag). -/
structure SequenceAlert where
  league_id : Nat
  source_bbs_index : String
  dest_bbs_index : String
  expected_sequence : Nat
  received_sequence : Nat
  gap_size : Nat
  is_resolved : Bool := false
  deriving Repr, DecidableEq

/-- A directory: file name to byte contents. -/
abbrev Dir := List (String × List Nat)

/-- The hub's catalog plus the on-disk directories the service endpoints and
the batch pipeline touch.  `nextLeagueId` / `nextRunId` model the autoincrement
primary keys. -/
structure HubState where
  leagues : List League
  memberships : List LeagueMembership
  packets : List Packet
  runs : List ProcessingRun
  runFiles : List ProcessingRunFile
  alerts : List SequenceAlert
  inboundFiles : Dir
  outboundFiles : Dir
  processedFiles : Dir
  /-- `data_dir/nodelists/<game>/<league>/` entries, keyed by
  (lowercased game name, league number, file name). -/
  nodelistFiles : List ((String × String × String) × List Nat)
  nextLeagueId : Nat
  nextRunId : Nat
  deriving Repr, DecidableEq

/-! ## Shared filesystem helpers — `processing_service.py` -/

/-- `find_file_case_insensitive`: exact name first, then a lowercase scan. -/
def find_file_case_insensitive (dir : List (String × α)) (filename : String) :
    Option (String × α) :=
  match dir.find? (fun f => f.1 == filename) with
  | some f => some f
  | none => dir.find? (fun f => lowStr f.1 == lowStr filename)

/-- `Path.write_bytes` / `Path.rename` into a directory: replace the entry of
the same (exact) name or add one. -/
def writeFile (dir : Dir) (name : String) (content : List Nat) : Dir :=
  if dir.any (fun f => f.1 == name) then
    dir.map fun f => if f.1 == name then (name, content) else f
  else dir ++ [(name, content)]

/-- Delete a directory entry by exact name (`Path.unlink`). -/
def removeFile (dir : Dir) (name : String) : Dir :=
  dir.filter fun f => !(f.1 == name)

/-- Replace the first element satisfying `p` by its image under `f`; models a
SQLAlchemy UPDATE of the row returned by `query(...).first()`. -/
def updateFirst (p : α → Bool) (f : α → α) : List α → List α
  | [] => []
  | x :: xs => if p x then f x :: xs else x :: updateFirst p f xs

/-! ## Alert creation — `SequenceValidator.create_alert_if_new` -/

/-- A route key as produced by the `SELECT DISTINCT league_id, source, dest`
query: league row id and the two 2-hex endpoints. -/
abbrev Route := Nat × String × String

/-- The filter of the duplicate-alert lookup: same route, same expected
sequence, not yet resolved. -/
def alertMatches (route : Route) (expected : Nat) (a : SequenceAlert) : Bool :=
  a.league_id == route.1 && a.source_bbs_index == route.2.1 &&
  a.dest_bbs_index == route.2.2 && a.expected_sequence == expected &&
  a.is_resolved == false

/-- `SequenceValidator.create_alert_if_new`. -/
def create_alert_if_new (route : Route) (gap : GapInfo)
    (alerts : List SequenceAlert) : List SequenceAlert :=
  if alerts.any (alertMatches route gap.expected_sequence) then alerts
  else
    alerts ++ [{ league_id := route.1
                 source_bbs_index := route.2.1
                 dest_bbs_index := route.2.2
                 expected_sequence := gap.expected_sequence
                 received_sequence := gap.received_sequence
                 gap_size := gap.gap_size
                 is_resolved := false }]

/-- The `SELECT DISTINCT league_id, source_bbs_index, dest_bbs_index` route
list (first-occurrence order; SQL leaves the order unspecified). -/
def routesOf (packets : List Packet) : List Route :=
  (packets.map fun p => (p.league_id, p.source_bbs_index, p.dest_bbs_index)).foldl
    (fun acc r => if r ∈ acc then acc else acc ++ [r]) []

/-- Insert into a sorted list keeping duplicates. -/
def insSorted (n : Nat) : List Nat → List Nat
  | [] => [n]
  | m :: ms => if n ≤ m then n :: m :: ms else m :: insSorted n ms

/-- The per-route `SELECT sequence_number ... ORDER BY sequence_number`. -/
def seqsForRoute (packets : List Packet) (r : Route) : List Nat :=
  ((packets.filter fun p =>
      p.league_id == r.1 && p.source_bbs_index == r.2.1 &&
      p.dest_bbs_index == r.2.2).map
    (fun p => p.sequence_number)).foldr insSorted []

/-- `SequenceValidator.check_sequences`: for every distinct route, find the
gaps of its sequence list and create an alert for each gap that has no
unresolved twin. -/
def check_sequences (packets : List Packet) (alerts : List SequenceAlert) :
    List SequenceAlert :=
  (routesOf packets).foldl
    (fun als r =>
      (find_gaps (seqsForRoute packets r)).foldl
        (fun als2 g => create_alert_if_new r g als2) als)
    alerts

/-! ## Ingress — `backend/api/service/packets.py` `upload_packet` -/

/-- A raised `HTTPException`: status code and detail. -/
structure HTTPError where
  status_code : Nat
  detail : String
  deriving Repr, DecidableEq

instance {ε α : Type _} [DecidableEq ε] [DecidableEq α] :
    DecidableEq (Except ε α) := fun x y =>
  match x, y with
  | .ok a, .ok b => decidable_of_iff (a = b) (by simp)
  | .error a, .error b => decidable_of_iff (a = b) (by simp)
  | .ok _, .error _ => isFalse (fun h => Except.noConfusion h)
  | .error _, .ok _ => isFalse (fun h => Except.noConfusion h)

/-- The tail of the upload handler after the league row is resolved (`s1` is
the state after a possible auto-create commit): membership check, source-bbs
authorization, file write, row insert. -/
def upload_with_league (hash : List Nat → String) (now : Nat)
    (packet_info : PacketInfo) (normalized_filename : String)
    (content : List Nat) (clientId : Nat) (league : League) (s1 : HubState) :
    HubState × Except HTTPError String :=
  match s1.memberships.find? (fun m =>
      m.client_id == clientId && m.league_id == league.id && m.is_active) with
  | none => (s1, .error ⟨403, "Client is not a member of this league"⟩)
  | some membership =>
    match membership.bbs_index with
    | none => (s1, .error ⟨500, "Internal Server Error"⟩)
    | some b =>
      if upStr packet_info.source_bbs_index ≠ hex2 b then
        (s1, .error ⟨403, "Client cannot upload packets from this source BBS"⟩)
      else
        ({ s1 with
            inboundFiles := writeFile s1.inboundFiles normalized_filename content
            packets := s1.packets ++
              [{ filename := normalized_filename
                 league_id := league.id
                 source_bbs_index := packet_info.source_bbs_index
                 dest_bbs_index := packet_info.dest_bbs_index
                 sequence_number := packet_info.sequence_number
                 file_data := content
                 file_size := content.length
                 checksum := hash content
                 uploaded_at := some now }] },
         .ok normalized_filename)

/-- `upload_packet` (PUT): the full handler.  Returns the possibly-mutated
state together with either the error raised or the normalized filename of the
stored packet.  The league auto-create commit happens before the membership
checks, so a later 403 still leaves the created league behind, exactly as in
the source. -/
def upload_packet (hash : List Nat → String) (now : Nat)
    (league_id filename : String) (content : List Nat) (clientId : Nat)
    (s : HubState) : HubState × Except HTTPError String :=
  match parse_league_id league_id with
  | none => (s, .error ⟨400, "Invalid league_id format"⟩)
  | some lg =>
    if strStarts (upStr filename) "BRNODES." ||
       strStarts (upStr filename) "FENODES." then
      (s, .error ⟨403, "Nodelist files cannot be uploaded by clients"⟩)
    else
      match parse_packet_filename (upStr filename) with
      | none => (s, .error ⟨400, "Invalid filename format"⟩)
      | some packet_info =>
        if packet_info.league_id ≠ lg.1 then
          (s, .error ⟨400, "League number mismatch"⟩)
        else if packet_info.game_type ≠ lg.2 then
          (s, .error ⟨400, "Game type mismatch"⟩)
        else if content = [] then
          (s, .error ⟨400, "Empty request body"⟩)
        else
          match s.leagues.find? (fun L =>
              L.league_id == lg.1 && L.game_type == lg.2) with
          | some L =>
            upload_with_league hash now packet_info (upStr filename) content
              clientId L s
          | none =>
            upload_with_league hash now packet_info (upStr filename) content
              clientId
              { id := s.nextLeagueId, league_id := lg.1
                game_type := lg.2, is_active := true }
              { s with
                  leagues := s.leagues ++
                    [{ id := s.nextLeagueId, league_id := lg.1
                       game_type := lg.2, is_active := true }]
                  nextLeagueId := s.nextLeagueId + 1 }

/-! ## Egress — `backend/api/service/packets.py` `_download_packet` -/

/-- `q` strictly precedes `best` in `ORDER BY is_downloaded ASC,
uploaded_at DESC` (ties keep the earlier row; SQL leaves tie order
unspecified). -/
def betterPacket (q best : Packet) : Bool :=
  (!q.is_downloaded && best.is_downloaded) ||
  (q.is_downloaded == best.is_downloaded &&
   q.uploaded_at.getD 0 > best.uploaded_at.getD 0)

/-- The `query(Packet).filter(filename).order_by(...).first()` selection. -/
def selectPacket (packets : List Packet) (fname : String) : Option Packet :=
  match packets.filter (fun p => p.filename == fname) with
  | [] => none
  | p :: ps => some (ps.foldl (fun best q => if betterPacket q best then q else best) p)

/-- Stamp the selected row `downloaded_at=now`, `is_downloaded=true`. -/
def markDownloadedRow (packets : List Packet) (row : Packet) (now : Nat) :
    List Packet :=
  updateFirst (fun q => q == row)
    (fun q => { q with downloaded_at := some now, is_downloaded := true }) packets

/-- `_download_packet`: regular-packet download for an authenticated client.
`filename` is already uppercase-normalized by the dispatching endpoint. -/
def download_packet (now : Nat) (league_number league_game_type filename : String)
    (clientId : Nat) (s : HubState) : HubState × Except HTTPError String :=
  match parse_packet_filename filename with
  | none => (s, .error ⟨400, "Invalid filename format"⟩)
  | some packet_info =>
    if packet_info.league_id ≠ league_number then
      (s, .error ⟨400, "League number mismatch"⟩)
    else if packet_info.game_type ≠ league_game_type then
      (s, .error ⟨400, "Game type mismatch"⟩)
    else
      match selectPacket s.packets filename with
      | none => (s, .error ⟨404, "Packet not found"⟩)
      | some packet =>
        match s.memberships.find? (fun m =>
            m.client_id == clientId && m.league_id == packet.league_id &&
            m.is_active) with
        | none => (s, .error ⟨403, "Client is not a member of this league"⟩)
        | some membership =>
          match membership.bbs_index with
          | none => (s, .error ⟨500, "Internal Server Error"⟩)
          | some b =>
            if upStr packet_info.dest_bbs_index ≠ hex2 b then
              (s, .error ⟨403, "Cannot download packets for this BBS"⟩)
            else if !(s.outboundFiles.any fun f => f.1 == filename) then
              (s, .error ⟨404, "Packet file not found"⟩)
            else
              ({ s with packets := markDownloadedRow s.packets packet now },
               .ok filename)

/-! ## Batch processor — `backend/services/processing_service.py` -/

/-- The dict returned by the `DosemuRunner` commands:
`status ∈ {success, error, timeout}`, captured output, error detail. -/
structure DosemuResult where
  status : String
  output : String := ""
  error : Option String := none
  deriving Repr, DecidableEq

/-- The per-(league, game) staging directories under the game's working
root. -/
structure SubsetDirs where
  gameInbound : Dir
  gameOutbound : Dir
  deriving Repr, DecidableEq

/-- Everything the environment supplies to one game subset of a batch: the
Command Runner's result for the processing command, the staging directories'
initial contents, and the configured scores/game folders (text files) read by
artifact ingestion. -/
structure SubsetEnv where
  dosemu : DosemuResult
  dirs : SubsetDirs
  scoresDir : List (String × String)
  gameDir : List (String × String)
  deriving Repr, DecidableEq

/-- The membership loop body of `handle_nodelist_file`: skip memberships with
a `NULL` bbs_index, otherwise UPDATE the row keyed on
(filename, league, dest hex) or INSERT a fresh one. -/
def nodelistUpsert (fnameU : String) (leagueRowId : Nat) (content : List Nat)
    (chk : String) (now : Nat) (packets : List Packet) (m : LeagueMembership) :
    List Packet :=
  match m.bbs_index with
  | none => packets
  | some b =>
    let dest_bbs_hex := hex2 b
    let matchRow := fun (p : Packet) =>
      p.filename == fnameU && p.league_id == leagueRowId &&
      p.dest_bbs_index == dest_bbs_hex
    if packets.any matchRow then
      updateFirst matchRow (fun p =>
        { p with file_data := content, file_size := content.length, checksum := chk
                 uploaded_at := some now, processed_at := some now
                 is_processed := true, is_downloaded := false
                 downloaded_at := none }) packets
    else
      packets ++ [{ filename := fnameU, league_id := leagueRowId
                    source_bbs_index := "00", dest_bbs_index := dest_bbs_hex
                    sequence_number := 0, source_client_id := none
                    dest_client_id := some m.client_id
                    file_data := content, file_size := content.length
                    checksum := chk, uploaded_at := some now
                    is_processed := true, processed_at := some now
                    is_downloaded := false }]

/-- `ProcessingService.handle_nodelist_file`: move the emitted nodelist into
`nodelists/<game>/<league>/` under its canonical uppercase name (removing a
case-variant first), then UPSERT one packet row per active membership of the
matching league.  `game_type` is `"BRE"` or `"FE"`. -/
def handle_nodelist_file (hash : List Nat → String) (now : Nat)
    (game_type : String) (s : HubState) (file : String × List Nat) : HubState :=
  let filename_upper := upStr file.1
  if !(strStarts filename_upper "BRNODES." ||
       strStarts filename_upper "FENODES.") then s
  else
    let league_number := strDrop filename_upper 8
    let g := lowStr game_type
    let inThisDir := fun (e : (String × String × String) × List Nat) =>
      e.1.1 == g && e.1.2.1 == league_number
    let found :=
      match s.nodelistFiles.find? (fun e =>
          inThisDir e && e.1.2.2 == filename_upper) with
      | some e => some e
      | none => s.nodelistFiles.find? (fun e =>
          inThisDir e && lowStr e.1.2.2 == lowStr filename_upper)
    let nl1 :=
      match found with
      | some e =>
        if e.1.2.2 == filename_upper then s.nodelistFiles
        else s.nodelistFiles.filter (fun x => !(x.1 == e.1))
      | none => s.nodelistFiles
    let nl2 := (nl1.filter (fun x => !(x.1 == (g, league_number, filename_upper))))
                 ++ [((g, league_number, filename_upper), file.2)]
    let game_type_letter := if game_type == "BRE" then "B" else "F"
    match s.leagues.find? (fun L =>
        L.league_id == league_number && L.game_type == game_type_letter) with
    | none => { s with nodelistFiles := nl2 }
    | some league =>
      let memberships := s.memberships.filter (fun m =>
        m.league_id == league.id && m.is_active)
      let packets2 := memberships.foldl
        (nodelistUpsert filename_upper league.id file.2 (hash file.2) now)
        s.packets
      { s with nodelistFiles := nl2, packets := packets2 }

/-- The store step of the outbound-collection loop body, after the league row
is resolved (`s1` includes a possible auto-create commit): move the file into
the hub outbound directory — deleting the case-variant the
`find_file_case_insensitive` lookup returns first (sequence-wraparound
overwrite) — then UPDATE the Packet row of the same normalized filename, or
INSERT one if none exists. -/
def collect_store (hash : List Nat → String) (now : Nat) (run_id : Nat)
    (packet_info : PacketInfo) (filename_upper : String) (content : List Nat)
    (league : League) (s1 : HubState) : HubState :=
  let ob1 :=
    match find_file_case_insensitive s1.outboundFiles filename_upper with
    | some f => removeFile s1.outboundFiles f.1
    | none => s1.outboundFiles
  let ob2 := writeFile ob1 filename_upper content
  let matchRow := fun (p : Packet) => p.filename == filename_upper
  let packets2 :=
    if s1.packets.any matchRow then
      updateFirst matchRow (fun p =>
        { p with source_bbs_index := packet_info.source_bbs_index
                 dest_bbs_index := packet_info.dest_bbs_index
                 sequence_number := packet_info.sequence_number
                 file_size := content.length, file_data := content
                 checksum := hash content, processing_run_id := some run_id
                 processed_at := some now, is_downloaded := false
                 downloaded_at := none }) s1.packets
    else
      s1.packets ++ [{ filename := filename_upper, league_id := league.id
                       source_bbs_index := packet_info.source_bbs_index
                       dest_bbs_index := packet_info.dest_bbs_index
                       sequence_number := packet_info.sequence_number
                       file_data := content, file_size := content.length
                       checksum := hash content
                       processing_run_id := some run_id
                       processed_at := some now
                       uploaded_at := some now }]
  { s1 with outboundFiles := ob2, packets := packets2 }

/-- The loop body of `ProcessingService.collect_outbound_packets` for one file
of the game outbound directory.  The returned flag says whether the file was
moved out of that directory (nodelists and collected packets are; files that
fail to parse or are hub-destined stay behind). -/
def collect_one (hash : List Nat → String) (now : Nat) (hub_index : String)
    (game_type : String) (run_id : Nat) (s : HubState)
    (file : String × List Nat) : HubState × Bool :=
  let filename_upper := upStr file.1
  if strStarts filename_upper "BRNODES." || strStarts filename_upper "FENODES." then
    (handle_nodelist_file hash now game_type s file, true)
  else
    match parse_packet_filename file.1 with
    | none => (s, false)
    | some packet_info =>
      if packet_info.dest_bbs_index == hub_index then (s, false)
      else
        match s.leagues.find? (fun L =>
            L.league_id == packet_info.league_id &&
            L.game_type == (if game_type == "BRE" then "B" else "F")) with
        | some L =>
          (collect_store hash now run_id packet_info filename_upper file.2 L s,
           true)
        | none =>
          let L : League :=
            { id := s.nextLeagueId
              league_id := packet_info.league_id
              game_type := if game_type == "BRE" then "B" else "F"
              is_active := true }
          (collect_store hash now run_id packet_info filename_upper file.2 L
            { s with leagues := s.leagues ++ [L]
                     nextLeagueId := s.nextLeagueId + 1 },
           true)

/-- `ProcessingService.collect_outbound_packets`: fold `collect_one` over the
game outbound directory; also returns the files left behind. -/
def collect_outbound_packets (hash : List Nat → String) (now : Nat)
    (hub_index : String) (game_type : String) (run_id : Nat) (s : HubState)
    (outDir : Dir) : HubState × Dir :=
  outDir.foldl
    (fun acc file =>
      let r := collect_one hash now hub_index game_type run_id acc.1 file
      (r.1, if r.2 then acc.2 else acc.2 ++ [file]))
    (s, [])

/-- Step 1 of `process_game_batch`: copy every staged packet's hub-inbound
file (case-insensitive lookup) into the game inbound directory under the
catalog filename. -/
def stage_inbound (hubInbound : Dir) (subset : List Packet) (gameInbound : Dir) :
    Dir :=
  subset.foldl
    (fun d p =>
      match find_file_case_insensitive hubInbound p.filename with
      | some f => writeFile d p.filename f.2
      | none => d)
    gameInbound

/-- The archive half of step 3: move each staged packet's hub-inbound file to
the hub processed directory (under its on-disk name). -/
def archive_loop (subset : List Packet) (hubInbound hubProcessed : Dir) :
    Dir × Dir :=
  subset.foldl
    (fun dirs p =>
      match find_file_case_insensitive dirs.1 p.filename with
      | some f => (removeFile dirs.1 f.1, writeFile dirs.2 f.1 f.2)
      | none => dirs)
    (hubInbound, hubProcessed)

/-- The fixed score-file names read by `ingest_processing_files`. -/
def score_filenames : List String :=
  ["BBSLAND.ANS", "BBSSCORE.ANS", "BBSWLAND.ANS", "BBSWORTH.ANS",
   "PLYLAND.ANS", "PLYSCORE.ANS", "PLYWLAND.ANS", "PLYWORTH.ANS",
   "SCORES.ANS", "YESNEWS.ANS", "tdynews.ans"]

/-- `ProcessingService.ingest_processing_files`: read known score files from
the configured scores folder and `routes.lst` / `bbsinfo.lst` from the game
folder (all case-insensitive) and persist each as a `ProcessingRunFile` bound
to the run.  The auxiliary scores/routes/bbsinfo commands only log warnings on
failure and leave no state behind, so they have no model. -/
def ingest_processing_files (run_id : Nat)
    (scoresDir gameDir : List (String × String)) (s : HubState) : HubState :=
  let s1 := score_filenames.foldl
    (fun st fn =>
      match find_file_case_insensitive scoresDir fn with
      | some f => { st with runFiles := st.runFiles ++
          [{ processing_run_id := run_id, file_type := "score", filename := f.1
             file_data := f.2, file_size := f.2.length }] }
      | none => st)
    s
  let s2 :=
    match find_file_case_insensitive gameDir "routes.lst" with
    | some f => { s1 with runFiles := s1.runFiles ++
        [{ processing_run_id := run_id, file_type := "routes", filename := f.1
           file_data := f.2, file_size := f.2.length }] }
    | none => s1
  match find_file_case_insensitive gameDir "bbsinfo.lst" with
  | some f => { s2 with runFiles := s2.runFiles ++
      [{ processing_run_id := run_id, file_type := "bbsinfo", filename := f.1
         file_data := f.2, file_size := f.2.length }] }
  | none => s2

/-- `ProcessingService.process_game_batch` for one game subset: stage, run
the Command Runner, and — only on success — mark the subset processed,
archive, collect outbound, ingest artifacts and clean the staging
directory.  A non-success runner result is returned as a value (it is not
raised), leaving the catalog untouched. -/
def process_game_batch (hash : List Nat → String) (now : Nat)
    (hub_index : String) (game_type : String) (env : SubsetEnv)
    (subset : List Packet) (run_id : Nat) (s : HubState) :
    HubState × SubsetDirs × DosemuResult :=
  match subset with
  | [] => (s, env.dirs, { status := "success" })
  | first :: _ =>
    match s.leagues.find? (fun L => L.id == first.league_id) with
    | none => (s, env.dirs, { status := "error", error := some "League not found" })
    | some _league =>
      let staged : SubsetDirs :=
        { env.dirs with
          gameInbound := stage_inbound s.inboundFiles subset env.dirs.gameInbound }
      if env.dosemu.status ≠ "success" then (s, staged, env.dosemu)
      else
        let marked := s.packets.map fun p =>
          if p ∈ subset then { p with processed_at := some now } else p
        let archived := archive_loop subset s.inboundFiles s.processedFiles
        let s2 := { s with packets := marked
                           inboundFiles := archived.1
                           processedFiles := archived.2 }
        let col := collect_outbound_packets hash now hub_index game_type run_id
          s2 staged.gameOutbound
        let s3 := ingest_processing_files run_id env.scoresDir env.gameDir col.1
        (s3, { gameInbound := [], gameOutbound := col.2 }, env.dosemu)

/-- `ProcessingService.get_game_type`. -/
def get_game_type (leagues : List League) (p : Packet) : Option String :=
  (leagues.find? (fun L => L.id == p.league_id)).map (fun L => L.game_type)

/-- `ProcessingService.scan_outbound_folders`: sweep every active league's
configured game outbound folder (supplied by the environment, keyed by league
row id) through `collect_outbound_packets` with `run_id = 0`, skipping absent
or empty directories. -/
def scan_outbound_folders (hash : List Nat → String) (now : Nat)
    (hub_index : String) (sweepDirs : Nat → Dir) (s : HubState) : HubState :=
  (s.leagues.filter (fun L => L.is_active)).foldl
    (fun st L =>
      let game_type_str := if L.game_type == "B" then "BRE" else "FE"
      let dir := sweepDirs L.id
      if dir.isEmpty then st
      else (collect_outbound_packets hash now hub_index game_type_str 0 st dir).1)
    s

/-- Phases 5–8 of `process_batch`: close the run (`completed_at=now`,
`packets_processed`, `status="completed"`, joined dosemu log), run the
sequence check, and sweep the outbound folders. -/
def close_batch_and_sweep (hash : List Nat → String) (now : Nat)
    (hub_index : String) (sweepDirs : Nat → Dir) (packets : List Packet)
    (outputs : List String) (run_id : Nat) (s3 : HubState) : HubState :=
  let closeRun := fun (r : ProcessingRun) =>
    { r with completed_at := some now
             packets_processed := packets.length
             status := "completed"
             dosemu_log := String.intercalate "\n\n" outputs }
  let s4 := { s3 with runs := updateFirst (fun r => r.id == run_id) closeRun s3.runs }
  let s5 := { s4 with alerts := check_sequences s4.packets s4.alerts }
  scan_outbound_folders hash now hub_index sweepDirs s5

/-- `ProcessingService.process_batch` on the no-exception execution: select
the unprocessed packets, open a run, process the B then the F subset, close
the run as `completed` with the joined captured output, run the sequence
check, and sweep the outbound folders.  (The `except` branch that would set
`status="error"` fires only when a Python exception escapes
`process_game_batch`; runner failures are returned as values and never
raise.) -/
def process_batch (hash : List Nat → String) (now : Nat) (hub_index : String)
    (envB envF : SubsetEnv) (sweepDirs : Nat → Dir) (s : HubState) : HubState :=
  let packets := s.packets.filter (fun p => p.processed_at == none)
  if packets.isEmpty then scan_outbound_folders hash now hub_index sweepDirs s
  else
    let bre_packets := packets.filter (fun p => get_game_type s.leagues p == some "B")
    let fe_packets := packets.filter (fun p => get_game_type s.leagues p == some "F")
    let run_id := s.nextRunId
    let s1 := { s with runs := s.runs ++ [{ id := run_id }]
                       nextRunId := run_id + 1 }
    let rB := if bre_packets.isEmpty then none
      else some (process_game_batch hash now hub_index "BRE" envB bre_packets run_id s1)
    let s2 := match rB with | some r => r.1 | none => s1
    let rF := if fe_packets.isEmpty then none
      else some (process_game_batch hash now hub_index "FE" envF fe_packets run_id s2)
    let s3 := match rF with | some r => r.1 | none => s2
    let outputs := ([rB, rF].filterMap id).map (fun r => r.2.2.output)
    close_batch_and_sweep hash now hub_index sweepDirs packets outputs run_id s3

/-! ## Generic list lemmas used by several claims -/

theorem updateFirst_length (p : α → Bool) (f : α → α) (l : List α) :
    (updateFirst p f l).length = l.length := by
  induction l with
  | nil => rfl
  | cons a l ih =>
    unfold updateFirst
    split <;> simp [ih]

theorem updateFirst_append_left (p : α → Bool) (f : α → α) (l1 l2 : List α)
    (h : ∀ x ∈ l1, p x = false) :
    updateFirst p f (l1 ++ l2) = l1 ++ updateFirst p f l2 := by
  induction l1 with
  | nil => rfl
  | cons a l ih =>
    have ha : p a = false := h a (List.mem_cons_self a l)
    simp only [List.cons_append, updateFirst, ha]
    simp only [Bool.false_eq_true, if_false, List.cons.injEq, true_and]
    exact ih fun x hx => h x (List.mem_cons_of_mem a hx)

theorem updateFirst_filter_single (p : α → Bool) (f : α → α) (l : List α)
    (x : α) (hl : l.filter p = [x]) (hfx : p (f x) = true) :
    (updateFirst p f l).filter p = [f x] := by
  induction l with
  | nil => simp at hl
  | cons a l ih =>
    by_cases ha : p a = true
    · rw [List.filter_cons_of_pos ha] at hl
      injection hl with h1 h2
      subst h1
      simp [updateFirst, ha, hfx, h2]
    · rw [List.filter_cons_of_neg (by simpa using ha)] at hl
      have := ih hl
      simp [updateFirst, ha, List.filter_cons_of_neg (by simpa using ha), this]

theorem mem_updateFirst (p : α → Bool) (f : α → α) (l : List α) (q : α)
    (hq : q ∈ updateFirst p f l) : q ∈ l ∨ ∃ x ∈ l, q = f x := by
  induction l with
  | nil => simp [updateFirst] at hq
  | cons a l ih =>
    unfold updateFirst at hq
    split at hq
    · rcases List.mem_cons.mp hq with h | h
      · exact Or.inr ⟨a, List.mem_cons_self a l, h⟩
      · exact Or.inl (List.mem_cons_of_mem a h)
    · rcases List.mem_cons.mp hq with h | h
      · exact Or.inl (h ▸ List.mem_cons_self a l)
      · rcases ih h with h2 | ⟨x, hx, hfx⟩
        · exact Or.inl (List.mem_cons_of_mem a h2)
        · exact Or.inr ⟨x, List.mem_cons_of_mem a hx, hfx⟩

/-! ## Demo fixtures shared by the concrete witnesses -/

/-- A concrete stand-in for `sha256(...).hexdigest()` used by witnesses. -/
def demoHash : List Nat → String :=
  fun l => String.mk ((l ++ [0]).map fun n => hexDigit (n % 16))

/-- A stored packet on route 02→01 of league 555B, sequence 3. -/
def demoPacket : Packet :=
  { filename := "555B0201.003", league_id := 1, source_bbs_index := "02"
    dest_bbs_index := "01", sequence_number := 3, file_data := [1]
    file_size := 1, checksum := "aa", uploaded_at := some 10 }

/-- A hub with league 555B and three member clients (bbs 2, 1 and 5). -/
def demoState : HubState :=
  { leagues := [{ id := 1, league_id := "555", game_type := "B" }]
    memberships := [{ client_id := 7, league_id := 1, bbs_index := some 2 },
                    { client_id := 8, league_id := 1, bbs_index := some 1 },
                    { client_id := 9, league_id := 1, bbs_index := some 5 }]
    packets := [demoPacket]
    runs := [], runFiles := [], alerts := []
    inboundFiles := [], outboundFiles := [("555B0201.003", [1])]
    processedFiles := [], nodelistFiles := []
    nextLeagueId := 2, nextRunId := 1 }

/-! ## C7 — a sub-threshold hole is reported per missing sequence -/

/-- C7: for the received sequence set `{100, 500}` on one route, gap detection
reports a gap of size 399: one missing-sequence entry for every sequence 101
through 499, each with `received_sequence = 500` and `gap_size = 399`. -/
theorem c7_linear_gap_reports_each_missing_sequence :
    find_gaps [100, 500] =
      (List.range 399).map (fun j =>
        { expected_sequence := 101 + j, received_sequence := 500
          gap_size := 399 }) := by
  decide

/-! ## C6 — at-or-above-threshold transitions are wrap-arounds, not gaps -/

theorem emitPairWrap_gap_bounds (c n : Nat) (g : GapInfo)
    (hg : g ∈ emitPairWrap c n) :
    0 < g.gap_size ∧ g.gap_size < WRAP_DETECTION_THRESHOLD := by
  simp only [emitPairWrap] at hg
  split at hg <;> split at hg
  · rename_i h
    rcases List.mem_map.mp hg with ⟨j, _, rfl⟩
    exact h
  · exact absurd hg (List.not_mem_nil g)
  · rename_i h
    rcases List.mem_map.mp hg with ⟨j, _, rfl⟩
    exact h
  · exact absurd hg (List.not_mem_nil g)

theorem emitPairLinear_gap_bounds (c n : Nat) (g : GapInfo)
    (hg : g ∈ emitPairLinear c n) :
    0 < g.gap_size ∧ g.gap_size < WRAP_DETECTION_THRESHOLD := by
  simp only [emitPairLinear] at hg
  split at hg
  · rename_i h
    rcases List.mem_map.mp hg with ⟨j, _, rfl⟩
    exact h
  · exact absurd hg (List.not_mem_nil g)

theorem find_gaps_gap_bounds (sequences : List Nat) (g : GapInfo)
    (hg : g ∈ find_gaps sequences) :
    0 < g.gap_size ∧ g.gap_size < WRAP_DETECTION_THRESHOLD := by
  simp only [find_gaps] at hg
  split at hg
  · exact absurd hg (List.not_mem_nil g)
  · split at hg
    · exact absurd hg (List.not_mem_nil g)
    · split at hg
      · rcases List.mem_flatten.mp hg with ⟨l, hl, hgl⟩
        rcases List.mem_map.mp hl with ⟨pair, _, rfl⟩
        exact emitPairWrap_gap_bounds pair.1 pair.2 g hgl
      · rcases List.mem_flatten.mp hg with ⟨l, hl, hgl⟩
        rcases List.mem_map.mp hl with ⟨pair, _, rfl⟩
        exact emitPairLinear_gap_bounds pair.1 pair.2 g hgl

/-- C6: the received sequence set `{999, 0}` produces no gaps — and in
general a transition whose gap is at or above the wrap threshold of 500 is
never reported as missing sequences (every reported entry has
`0 < gap_size < 500`). -/
theorem c6_wrap_transition_is_not_a_gap :
    find_gaps [999, 0] = [] ∧
    ∀ (sequences : List Nat) (g : GapInfo), g ∈ find_gaps sequences →
      0 < g.gap_size ∧ g.gap_size < WRAP_DETECTION_THRESHOLD :=
  ⟨by decide, fun s g h => find_gaps_gap_bounds s g h⟩

/-- Witness for C6 at concrete inputs. -/
theorem c6_witness :
    find_gaps [999, 0] = [] ∧
    (0 < (⟨101, 500, 399⟩ : GapInfo).gap_size ∧
     (⟨101, 500, 399⟩ : GapInfo).gap_size < WRAP_DETECTION_THRESHOLD) :=
  ⟨c6_wrap_transition_is_not_a_gap.1,
   c6_wrap_transition_is_not_a_gap.2 [100, 500] ⟨101, 500, 399⟩ (by decide)⟩

/-! ## C10 — an empty upload body is rejected before any state change -/

/-- C10: an upload whose body is empty is rejected with
400 "Empty request body" before the league lookup (and its auto-create
commit), the membership check, the file write and the row insert: the state
comes back exactly as it went in. -/
theorem c10_empty_body_rejected_without_state_change
    (hash : List Nat → String) (now : Nat) (league_id filename : String)
    (clientId : Nat) (s : HubState) (ln gt : String) (pi : PacketInfo)
    (hlg : parse_league_id league_id = some (ln, gt))
    (hb1 : strStarts (upStr filename) "BRNODES." = false)
    (hb2 : strStarts (upStr filename) "FENODES." = false)
    (hp : parse_packet_filename (upStr filename) = some pi)
    (hln : pi.league_id = ln) (hgt : pi.game_type = gt) :
    upload_packet hash now league_id filename [] clientId s =
      (s, .error ⟨400, "Empty request body"⟩) := by
  unfold upload_packet
  rw [hlg]
  simp [hb1, hb2, hp, hln, hgt]

/-- Witness for C10: an empty-body upload of `555B0201.001` to the demo hub
changes nothing. -/
theorem c10_witness :
    upload_packet demoHash 0 "555B" "555B0201.001" [] 7 demoState =
      (demoState, .error ⟨400, "Empty request body"⟩) :=
  c10_empty_body_rejected_without_state_change demoHash 0 "555B" "555B0201.001"
    7 demoState "555" "B"
    { league_id := "555", game_type := "B", source_bbs_index := "02"
      dest_bbs_index := "01", sequence_number := 1 }
    (by decide) (by decide) (by decide) (by decide) rfl rfl

/-! ## C9 — a download for a foreign destination is a 403 and changes nothing -/

/-- C9: when the authenticated client's active membership bbs index does not
match the destination byte of the requested regular packet's filename,
`_download_packet` returns 403 and the state — in particular the packet's
`downloaded_at` and `is_downloaded` — is unchanged. -/
theorem c9_wrong_dest_download_is_403_and_pure
    (now : Nat) (ln gt fname : String) (clientId : Nat) (s : HubState)
    (pi : PacketInfo) (packet : Packet) (membership : LeagueMembership) (b : Nat)
    (hp : parse_packet_filename fname = some pi)
    (hln : pi.league_id = ln) (hgt : pi.game_type = gt)
    (hsel : selectPacket s.packets fname = some packet)
    (hmem : s.memberships.find? (fun m =>
        m.client_id == clientId && m.league_id == packet.league_id &&
        m.is_active) = some membership)
    (hb : membership.bbs_index = some b)
    (hne : upStr pi.dest_bbs_index ≠ hex2 b) :
    download_packet now ln gt fname clientId s =
      (s, .error ⟨403, "Cannot download packets for this BBS"⟩) := by
  unfold download_packet
  rw [hp]
  simp [hln, hgt, hsel, hmem, hb, hne]

/-- Witness for C9: client 9 (bbs 5) asking for `555B0201.003` (dest 01) gets
403 and the demo state is untouched. -/
theorem c9_witness :
    download_packet 99 "555" "B" "555B0201.003" 9 demoState =
      (demoState, .error ⟨403, "Cannot download packets for this BBS"⟩) :=
  c9_wrong_dest_download_is_403_and_pure 99 "555" "B" "555B0201.003" 9 demoState
    { league_id := "555", game_type := "B", source_bbs_index := "02"
      dest_bbs_index := "01", sequence_number := 3 }
    demoPacket { client_id := 9, league_id := 1, bbs_index := some 5 } 5
    (by decide) rfl rfl (by decide) (by decide) (by decide) (by decide)

/-! ## C1 — re-upload of a stored filename is NOT a replacement -/

def isOkE : Except HTTPError String → Bool
  | .ok _ => true
  | .error _ => false

def c1_up1 : HubState × Except HTTPError String :=
  upload_packet demoHash 0 "555B" "555B0201.001" [1, 2, 3] 7 demoState

def c1_s1 : HubState := c1_up1.1

def c1_up2 : HubState × Except HTTPError String :=
  upload_packet demoHash 1 "555B" "555B0201.001" [1, 2, 3] 7 c1_s1

def c1_s2 : HubState := c1_up2.1

/-- C1 counterexample: uploading `555B0201.001` twice (identical bytes, both
uploads succeed) leaves TWO packet rows with that filename, not one —
`upload_packet` inserts unconditionally and never replaces the stored row. -/
theorem c1_counterexample_second_upload_duplicates_row :
    isOkE c1_up1.2 = true ∧ isOkE c1_up2.2 = true ∧
    (c1_s2.packets.filter (fun p => p.filename == "555B0201.001")).length = 2 := by
  decide

theorem upload_with_league_ok
    (hash : List Nat → String) (now : Nat) (packet_info : PacketInfo)
    (nf : String) (content : List Nat) (clientId : Nat) (league : League)
    (s1 s2 : HubState) (ret : String)
    (h : upload_with_league hash now packet_info nf content clientId league s1 =
      (s2, .ok ret)) :
    ∃ p : Packet, s2.packets = s1.packets ++ [p] ∧
      p.filename = nf ∧ p.checksum = hash content ∧
      p.downloaded_at = none ∧ p.file_data = content := by
  unfold upload_with_league at h
  split at h
  · simp at h
  · split at h
    · simp at h
    · split at h
      · simp at h
      · rw [Prod.mk.injEq] at h
        exact ⟨{ filename := nf, league_id := league.id
                 source_bbs_index := packet_info.source_bbs_index
                 dest_bbs_index := packet_info.dest_bbs_index
                 sequence_number := packet_info.sequence_number
                 file_data := content, file_size := content.length
                 checksum := hash content, uploaded_at := some now },
               by rw [← h.1], rfl, rfl, rfl, rfl⟩

/-- C1 (amended): a successful upload appends one new Packet row — it does
not replace the existing row of the same filename, so a second upload leaves
one more row with that filename than before; the appended row carries the
SHA-256 of the uploaded bytes and a cleared `downloaded_at`, and all
pre-existing rows are untouched. -/
theorem c1_amended_upload_appends_row
    (hash : List Nat → String) (now : Nat) (league_id filename : String)
    (content : List Nat) (clientId : Nat) (s s1 : HubState) (ret : String)
    (h : upload_packet hash now league_id filename content clientId s =
      (s1, .ok ret)) :
    ∃ p, s1.packets = s.packets ++ [p] ∧
      p.filename = upStr filename ∧ p.checksum = hash content ∧
      p.downloaded_at = none ∧ p.file_data = content ∧
      (s1.packets.filter (fun q => q.filename == upStr filename)).length =
        (s.packets.filter (fun q => q.filename == upStr filename)).length + 1 := by
  unfold upload_packet at h
  repeat' split at h
  any_goals simp at h
  all_goals
    obtain ⟨p, hpk, hpf, hpc, hpd, hpdata⟩ :=
      upload_with_league_ok _ _ _ _ _ _ _ _ _ _ h
  all_goals
    exact ⟨p, hpk, hpf, hpc, hpd, hpdata, by
      simp [hpk, List.filter_append, hpf]⟩


/-! ## C3 — outbound collection updates the existing row in place -/

theorem filter_eq_single_any (p : α → Bool) (l : List α) (x : α)
    (h : l.filter p = [x]) : l.any p = true := by
  have hx : x ∈ l.filter p := by rw [h]; exact List.mem_cons_self x []
  rcases List.mem_filter.mp hx with ⟨hm, hp⟩
  exact List.any_eq_true.mpr ⟨x, hm, hp⟩

theorem collect_store_filter (hash : List Nat → String) (now run_id : Nat)
    (pi : PacketInfo) (fU : String) (content : List Nat) (league : League)
    (s1 : HubState) (row : Packet)
    (hfil : s1.packets.filter (fun p => p.filename == fU) = [row]) :
    (collect_store hash now run_id pi fU content league s1).packets.filter
        (fun p => p.filename == fU) =
      [{ row with
           source_bbs_index := pi.source_bbs_index
           dest_bbs_index := pi.dest_bbs_index
           sequence_number := pi.sequence_number
           file_size := content.length
           file_data := content
           checksum := hash content
           processing_run_id := some run_id
           processed_at := some now
           is_downloaded := false
           downloaded_at := none }] ∧
    (collect_store hash now run_id pi fU content league s1).packets.length =
      s1.packets.length := by
  have hrow : (row.filename == fU) = true := by
    have hx : row ∈ s1.packets.filter (fun p => p.filename == fU) := by
      rw [hfil]; exact List.mem_cons_self row []
    exact (List.mem_filter.mp hx).2
  have hany : s1.packets.any (fun p => p.filename == fU) = true :=
    filter_eq_single_any _ _ _ hfil
  simp only [collect_store]
  rw [if_pos hany]
  exact ⟨updateFirst_filter_single _ _ _ _ hfil hrow,
         updateFirst_length _ _ _⟩

/-- C3: when a collected game-outbound file's parsed, uppercase-normalized
name already names a Packet row, `collect_one` UPDATEs that row in place —
source, dest, sequence, size, payload, checksum, `processing_run_id`,
`processed_at = now`, `is_downloaded = false`, `downloaded_at` cleared — and
inserts nothing, so exactly one row with that filename remains. -/
theorem c3_outbound_collect_updates_existing_row
    (hash : List Nat → String) (now : Nat) (hub_index game_type : String)
    (run_id : Nat) (s : HubState) (file : String × List Nat)
    (pi : PacketInfo) (row : Packet)
    (hb1 : strStarts (upStr file.1) "BRNODES." = false)
    (hb2 : strStarts (upStr file.1) "FENODES." = false)
    (hp : parse_packet_filename file.1 = some pi)
    (hdest : (pi.dest_bbs_index == hub_index) = false)
    (hfil : s.packets.filter (fun p => p.filename == upStr file.1) = [row]) :
    ((collect_one hash now hub_index game_type run_id s file).1.packets.filter
        (fun p => p.filename == upStr file.1)) =
      [{ row with
           source_bbs_index := pi.source_bbs_index
           dest_bbs_index := pi.dest_bbs_index
           sequence_number := pi.sequence_number
           file_size := file.2.length
           file_data := file.2
           checksum := hash file.2
           processing_run_id := some run_id
           processed_at := some now
           is_downloaded := false
           downloaded_at := none }] ∧
    (collect_one hash now hub_index game_type run_id s file).1.packets.length =
      s.packets.length := by
  unfold collect_one
  rw [hp]
  simp only [hb1, hb2, Bool.or_self, Bool.false_eq_true, if_false, hdest]
  split <;> exact collect_store_filter _ _ _ _ _ _ _ _ _ hfil

/-- Witness for C3: the game re-emits `555B0201.003` (already catalogued in
the demo hub) with fresh bytes; the single row is updated in place. -/
theorem c3_witness :
    ((collect_one demoHash 42 "00" "BRE" 9 demoState ("555B0201.003", [5, 6])).1.packets.filter
        (fun p => p.filename == upStr "555B0201.003")) =
      [{ demoPacket with
           source_bbs_index := "02"
           dest_bbs_index := "01"
           sequence_number := 3
           file_size := 2
           file_data := [5, 6]
           checksum := demoHash [5, 6]
           processing_run_id := some 9
           processed_at := some 42
           is_downloaded := false
           downloaded_at := none }] ∧
    (collect_one demoHash 42 "00" "BRE" 9 demoState ("555B0201.003", [5, 6])).1.packets.length =
      demoState.packets.length :=
  c3_outbound_collect_updates_existing_row demoHash 42 "00" "BRE" 9 demoState
    ("555B0201.003", [5, 6])
    { league_id := "555", game_type := "B", source_bbs_index := "02"
      dest_bbs_index := "01", sequence_number := 3 }
    demoPacket (by decide) (by decide) (by decide) (by decide) (by decide)

/-! ## C5 — duplicate-alert suppression and validator stability -/

/-- `check_sequences` as a single fold over the flattened (route, gap)
list. -/
def processPairs (l : List (Route × GapInfo)) (alerts : List SequenceAlert) :
    List SequenceAlert :=
  l.foldl (fun als p => create_alert_if_new p.1 p.2 als) alerts

def gapPairs (packets : List Packet) : List (Route × GapInfo) :=
  ((routesOf packets).map fun r =>
    (find_gaps (seqsForRoute packets r)).map fun g => (r, g)).flatten

theorem check_sequences_eq_processPairs (packets : List Packet)
    (alerts : List SequenceAlert) :
    check_sequences packets alerts = processPairs (gapPairs packets) alerts := by
  unfold check_sequences gapPairs processPairs
  generalize routesOf packets = routes
  induction routes generalizing alerts with
  | nil => rfl
  | cons r rs ih =>
    simp only [List.map_cons, List.flatten_cons, List.foldl_cons,
      List.foldl_append, List.foldl_map]
    exact ih _

theorem create_alert_present (r : Route) (g : GapInfo)
    (als : List SequenceAlert) :
    (create_alert_if_new r g als).any (alertMatches r g.expected_sequence) = true := by
  unfold create_alert_if_new
  split
  · assumption
  · rw [List.any_append]
    simp [alertMatches]

theorem create_alert_mono (r : Route) (g : GapInfo) (als : List SequenceAlert)
    (q : SequenceAlert → Bool) (h : als.any q = true) :
    (create_alert_if_new r g als).any q = true := by
  unfold create_alert_if_new
  split
  · exact h
  · rw [List.any_append]
    simp [h]

theorem create_alert_noop (r : Route) (g : GapInfo) (als : List SequenceAlert)
    (h : als.any (alertMatches r g.expected_sequence) = true) :
    create_alert_if_new r g als = als := by
  simp [create_alert_if_new, h]

theorem processPairs_any_mono (l : List (Route × GapInfo)) :
    ∀ als (q : SequenceAlert → Bool), als.any q = true →
      (processPairs l als).any q = true := by
  induction l with
  | nil => exact fun als q h => h
  | cons a ps ih =>
    exact fun als q h => ih _ q (create_alert_mono _ _ _ q h)

theorem processPairs_present (l : List (Route × GapInfo))
    (p : Route × GapInfo) :
    ∀ als, p ∈ l →
      (processPairs l als).any (alertMatches p.1 p.2.expected_sequence) = true := by
  induction l with
  | nil => intro als hp; simp at hp
  | cons a ps ih =>
    intro als hp
    rcases List.mem_cons.mp hp with h | h
    · subst h
      exact processPairs_any_mono ps _ _ (create_alert_present _ _ _)
    · exact ih _ h

theorem processPairs_noop (l : List (Route × GapInfo)) :
    ∀ als, (∀ p ∈ l, als.any (alertMatches p.1 p.2.expected_sequence) = true) →
      processPairs l als = als := by
  induction l with
  | nil => intro als _; rfl
  | cons a ps ih =>
    intro als h
    have ha := create_alert_noop a.1 a.2 als (h a (List.mem_cons_self a ps))
    show processPairs ps (create_alert_if_new a.1 a.2 als) = als
    rw [ha]
    exact ih als fun p hp => h p (List.mem_cons_of_mem a hp)

/-- The four-component key of the duplicate-alert lookup. -/
def alertKey (a : SequenceAlert) : Nat × String × String × Nat :=
  (a.league_id, a.source_bbs_index, a.dest_bbs_index, a.expected_sequence)

/-- At most one unresolved alert per (league, source, dest, expected
sequence). -/
def uniqueUnresolved (alerts : List SequenceAlert) : Prop :=
  (alerts.filter fun a => !a.is_resolved).Pairwise fun a b => alertKey a ≠ alertKey b

theorem create_alert_inv (r : Route) (g : GapInfo) (als : List SequenceAlert)
    (h : uniqueUnresolved als) :
    uniqueUnresolved (create_alert_if_new r g als) := by
  unfold create_alert_if_new
  split
  · exact h
  · rename_i hany
    unfold uniqueUnresolved at h ⊢
    rw [List.filter_append, List.pairwise_append]
    refine ⟨h, ?_, ?_⟩
    · simp
    · intro a ha b hb
      simp only [List.filter_cons, List.filter_nil, Bool.not_false,
        if_pos, List.mem_singleton] at hb
      subst hb
      intro hkey
      apply hany
      rcases List.mem_filter.mp ha with ⟨hmem, hres⟩
      refine List.any_eq_true.mpr ⟨a, hmem, ?_⟩
      simp only [alertKey, Prod.mk.injEq] at hkey
      obtain ⟨h1, h2, h3, h4⟩ := hkey
      have hres2 : a.is_resolved = false := by simpa using hres
      simp [alertMatches, h1, h2, h3, h4, hres2]

theorem processPairs_inv (l : List (Route × GapInfo)) :
    ∀ als, uniqueUnresolved als → uniqueUnresolved (processPairs l als) := by
  induction l with
  | nil => exact fun als h => h
  | cons a ps ih => exact fun als h => ih _ (create_alert_inv a.1 a.2 als h)

/-- C5: the sequence check preserves "at most one unresolved alert per
(league, source, dest, expected sequence)", and it is stable: a second run on
an unchanged packet set adds nothing (it is the identity on the alert
table). -/
theorem c5_alert_uniqueness_and_stability
    (packets : List Packet) (alerts : List SequenceAlert)
    (h : uniqueUnresolved alerts) :
    uniqueUnresolved (check_sequences packets alerts) ∧
    check_sequences packets (check_sequences packets alerts) =
      check_sequences packets alerts := by
  constructor
  · rw [check_sequences_eq_processPairs]
    exact processPairs_inv _ _ h
  · simp only [check_sequences_eq_processPairs]
    exact processPairs_noop _ _ fun p hp => processPairs_present _ p _ hp

/-- A second stored packet on the demo route, sequence 1 (so the route has
sequences {1, 3} and a missing 2). -/
def demoPacket2 : Packet :=
  { demoPacket with sequence_number := 1, filename := "555B0201.001" }

/-- Witness for C5 on the concrete route with sequences {1, 3}. -/
theorem c5_witness :
    uniqueUnresolved (check_sequences [demoPacket, demoPacket2] []) ∧
    check_sequences [demoPacket, demoPacket2]
        (check_sequences [demoPacket, demoPacket2] []) =
      check_sequences [demoPacket, demoPacket2] [] :=
  c5_alert_uniqueness_and_stability [demoPacket, demoPacket2] []
    (by simp [uniqueUnresolved])

/-- Witness for C1 (amended) at the concrete double upload. -/
theorem c1_amended_witness :
    ∃ p, c1_s2.packets = c1_s1.packets ++ [p] ∧
      p.filename = upStr "555B0201.001" ∧ p.checksum = demoHash [1, 2, 3] ∧
      p.downloaded_at = none ∧ p.file_data = [1, 2, 3] ∧
      (c1_s2.packets.filter (fun q => q.filename == upStr "555B0201.001")).length =
        (c1_s1.packets.filter (fun q => q.filename == upStr "555B0201.001")).length + 1 :=
  c1_amended_upload_appends_row demoHash 1 "555B" "555B0201.001" [1, 2, 3] 7
    c1_s1 c1_s2 "555B0201.001" (by decide)

/-! ## C4 — nodelist fan-out: one row per active member, update on re-run -/

/-- The row `handle_nodelist_file` INSERTs for membership `m`. -/
def nlRowFor (fU : String) (lid : Nat) (content : List Nat) (chk : String)
    (now : Nat) (m : LeagueMembership) : Packet :=
  { filename := fU, league_id := lid, source_bbs_index := "00"
    dest_bbs_index := hex2 (m.bbs_index.getD 0), sequence_number := 0
    source_client_id := none, dest_client_id := some m.client_id
    file_data := content, file_size := content.length, checksum := chk
    uploaded_at := some now, is_processed := true, processed_at := some now
    is_downloaded := false }

/-- Fan-out over members none of whose upsert keys are present yet: the fold
appends exactly one fresh row per member (in order). -/
theorem nodelist_fold_fresh (fU : String) (lid : Nat) (content : List Nat)
    (chk : String) (now : Nat) :
    ∀ (members : List LeagueMembership) (packets : List Packet),
      (∀ m ∈ members, m.bbs_index ≠ none) →
      members.Pairwise (fun m1 m2 =>
        hex2 (m1.bbs_index.getD 0) ≠ hex2 (m2.bbs_index.getD 0)) →
      (∀ m ∈ members, ∀ p ∈ packets,
        (p.filename == fU && p.league_id == lid &&
         p.dest_bbs_index == hex2 (m.bbs_index.getD 0)) = false) →
      members.foldl (nodelistUpsert fU lid content chk now) packets =
        packets ++ members.map (nlRowFor fU lid content chk now) := by
  intro members
  induction members with
  | nil => intro packets _ _ _; simp
  | cons m ms ih =>
    intro packets h1 h2 h3
    obtain ⟨b, hb⟩ := Option.ne_none_iff_exists'.mp
      (h1 m (List.mem_cons_self m ms))
    have hno : (packets.any fun p =>
        p.filename == fU && p.league_id == lid &&
        p.dest_bbs_index == hex2 b) = false := by
      rw [List.any_eq_false]
      intro p hp
      have := h3 m (List.mem_cons_self m ms) p hp
      rw [hb] at this
      simp only [Option.getD_some] at this
      simp [this]
    have hstep : nodelistUpsert fU lid content chk now packets m =
        packets ++ [nlRowFor fU lid content chk now m] := by
      unfold nodelistUpsert
      rw [hb]
      simp only [hno, Bool.false_eq_true, if_false]
      have : nlRowFor fU lid content chk now m =
          { filename := fU, league_id := lid, source_bbs_index := "00"
            dest_bbs_index := hex2 b, sequence_number := 0
            source_client_id := none, dest_client_id := some m.client_id
            file_data := content, file_size := content.length, checksum := chk
            uploaded_at := some now, is_processed := true
            processed_at := some now, is_downloaded := false } := by
        simp [nlRowFor, hb]
      rw [this]
    show ms.foldl (nodelistUpsert fU lid content chk now)
        (nodelistUpsert fU lid content chk now packets m) = _
    rw [hstep]
    rw [ih (packets ++ [nlRowFor fU lid content chk now m])
      (fun x hx => h1 x (List.mem_cons_of_mem m hx))
      (List.Pairwise.sublist (List.sublist_cons_self m ms) h2)
      ?side]
    · simp
    case side =>
      intro x hx p hp
      rcases List.mem_append.mp hp with hpl | hpr
      · exact h3 x (List.mem_cons_of_mem m hx) p hpl
      · rw [List.mem_singleton.mp hpr]
        have hne := (List.pairwise_cons.mp h2).1 x hx
        simp [nlRowFor, hne]

/-- Re-running the fan-out over the rows it created updates each row in place
(new payload, size, checksum, timestamps, cleared download state) and appends
nothing. -/
theorem nodelist_fold_update (fU : String) (lid : Nat)
    (c1 : List Nat) (chk1 : String) (now1 : Nat)
    (c2 : List Nat) (chk2 : String) (now2 : Nat) :
    ∀ (members : List LeagueMembership) (packets : List Packet),
      (∀ m ∈ members, m.bbs_index ≠ none) →
      members.Pairwise (fun m1 m2 =>
        hex2 (m1.bbs_index.getD 0) ≠ hex2 (m2.bbs_index.getD 0)) →
      (∀ m ∈ members, ∀ p ∈ packets,
        (p.filename == fU && p.league_id == lid &&
         p.dest_bbs_index == hex2 (m.bbs_index.getD 0)) = false) →
      members.foldl (nodelistUpsert fU lid c2 chk2 now2)
          (packets ++ members.map (nlRowFor fU lid c1 chk1 now1)) =
        packets ++ members.map (nlRowFor fU lid c2 chk2 now2) := by
  intro members
  induction members with
  | nil => intro packets _ _ _; simp
  | cons m ms ih =>
    intro packets h1 h2 h3
    obtain ⟨b, hb⟩ := Option.ne_none_iff_exists'.mp
      (h1 m (List.mem_cons_self m ms))
    have hkeyrow : ((nlRowFor fU lid c1 chk1 now1 m).filename == fU &&
        (nlRowFor fU lid c1 chk1 now1 m).league_id == lid &&
        (nlRowFor fU lid c1 chk1 now1 m).dest_bbs_index == hex2 b) = true := by
      simp [nlRowFor, hb]
    have hyes : ((packets ++ nlRowFor fU lid c1 chk1 now1 m ::
        ms.map (nlRowFor fU lid c1 chk1 now1)).any fun p =>
          p.filename == fU && p.league_id == lid &&
          p.dest_bbs_index == hex2 b) = true := by
      rw [List.any_append]
      refine Bool.or_eq_true_iff.mpr (Or.inr ?_)
      rw [List.any_cons]
      exact Bool.or_eq_true_iff.mpr (Or.inl hkeyrow)
    have hnopk : ∀ p ∈ packets, (p.filename == fU && p.league_id == lid &&
        p.dest_bbs_index == hex2 b) = false := by
      intro p hp
      have := h3 m (List.mem_cons_self m ms) p hp
      rw [hb] at this
      simpa using this
    have hstep : nodelistUpsert fU lid c2 chk2 now2
        (packets ++ nlRowFor fU lid c1 chk1 now1 m ::
          ms.map (nlRowFor fU lid c1 chk1 now1)) m =
        (packets ++ [nlRowFor fU lid c2 chk2 now2 m]) ++
          ms.map (nlRowFor fU lid c1 chk1 now1) := by
      unfold nodelistUpsert
      rw [hb]
      simp only [hyes, if_true]
      rw [updateFirst_append_left _ _ _ _ hnopk]
      unfold updateFirst
      rw [if_pos hkeyrow]
      have : ({ nlRowFor fU lid c1 chk1 now1 m with
          file_data := c2, file_size := c2.length, checksum := chk2
          uploaded_at := some now2, processed_at := some now2
          is_processed := true, is_downloaded := false
          downloaded_at := none } : Packet) =
          nlRowFor fU lid c2 chk2 now2 m := by
        simp [nlRowFor]
      rw [this]
      simp
    show ms.foldl (nodelistUpsert fU lid c2 chk2 now2)
        (nodelistUpsert fU lid c2 chk2 now2
          (packets ++ (m :: ms).map (nlRowFor fU lid c1 chk1 now1)) m) = _
    rw [List.map_cons] at *
    rw [hstep]
    rw [ih (packets ++ [nlRowFor fU lid c2 chk2 now2 m])
      (fun x hx => h1 x (List.mem_cons_of_mem m hx))
      (List.Pairwise.sublist (List.sublist_cons_self m ms) h2)
      ?side2]
    · simp
    case side2 =>
      intro x hx p hp
      rcases List.mem_append.mp hp with hpl | hpr
      · exact h3 x (List.mem_cons_of_mem m hx) p hpl
      · rw [List.mem_singleton.mp hpr]
        have hne := (List.pairwise_cons.mp h2).1 x hx
        simp [nlRowFor, hne]

/-- One `handle_nodelist_file` call, league resolved: the packet table becomes
the member fold, and the league/membership tables are untouched. -/
theorem handle_nodelist_file_packets (hash : List Nat → String) (n : Nat)
    (gt : String) (t : HubState) (file : String × List Nat) (league : League)
    (hpre : (strStarts (upStr file.1) "BRNODES." ||
             strStarts (upStr file.1) "FENODES.") = true)
    (hlg : t.leagues.find? (fun L =>
        L.league_id == strDrop (upStr file.1) 8 &&
        L.game_type == (if gt == "BRE" then "B" else "F")) = some league) :
    (handle_nodelist_file hash n gt t file).packets =
      (t.memberships.filter (fun m =>
        m.league_id == league.id && m.is_active)).foldl
          (nodelistUpsert (upStr file.1) league.id file.2 (hash file.2) n)
          t.packets ∧
    (handle_nodelist_file hash n gt t file).memberships = t.memberships ∧
    (handle_nodelist_file hash n gt t file).leagues = t.leagues := by
  unfold handle_nodelist_file
  simp only [hpre, Bool.not_true, Bool.false_eq_true, if_false]
  rw [hlg]
  exact ⟨rfl, rfl, rfl⟩

/-- C4: handling a nodelist file for a league with N active memberships (all
with a bbs index, pairwise distinct) and no pre-existing rows of that
filename produces exactly one Packet row per active member — each with
`source_bbs_index = "00"`, `sequence_number = 0`, `is_processed = true` and
`dest_bbs_index` the member's bbs index in 2-hex (see `nlRowFor`) — and
handling the same filename again UPDATEs those same rows with the new
payload, size and checksum and a cleared `downloaded_at`, creating no
additional rows. -/
theorem c4_nodelist_fanout_one_row_per_member
    (hash : List Nat → String) (now now2 : Nat) (game_type : String)
    (s : HubState) (file : String × List Nat) (c2 : List Nat) (league : League)
    (hpre : (strStarts (upStr file.1) "BRNODES." ||
             strStarts (upStr file.1) "FENODES.") = true)
    (hlg : s.leagues.find? (fun L =>
        L.league_id == strDrop (upStr file.1) 8 &&
        L.game_type == (if game_type == "BRE" then "B" else "F")) = some league)
    (h1 : ∀ m ∈ s.memberships.filter (fun m =>
        m.league_id == league.id && m.is_active), m.bbs_index ≠ none)
    (h2 : (s.memberships.filter (fun m =>
        m.league_id == league.id && m.is_active)).Pairwise (fun m1 m2 =>
          hex2 (m1.bbs_index.getD 0) ≠ hex2 (m2.bbs_index.getD 0)))
    (h3 : ∀ p ∈ s.packets, (p.filename == upStr file.1) = false) :
    (handle_nodelist_file hash now game_type s file).packets =
      s.packets ++ (s.memberships.filter (fun m =>
        m.league_id == league.id && m.is_active)).map
          (nlRowFor (upStr file.1) league.id file.2 (hash file.2) now) ∧
    (handle_nodelist_file hash now game_type s file).packets.filter
        (fun p => p.filename == upStr file.1) =
      (s.memberships.filter (fun m =>
        m.league_id == league.id && m.is_active)).map
          (nlRowFor (upStr file.1) league.id file.2 (hash file.2) now) ∧
    (handle_nodelist_file hash now2 game_type
        (handle_nodelist_file hash now game_type s file) (file.1, c2)).packets =
      s.packets ++ (s.memberships.filter (fun m =>
        m.league_id == league.id && m.is_active)).map
          (nlRowFor (upStr file.1) league.id c2 (hash c2) now2) := by
  have hkey3 : ∀ m ∈ s.memberships.filter (fun m =>
      m.league_id == league.id && m.is_active), ∀ p ∈ s.packets,
      (p.filename == upStr file.1 && p.league_id == league.id &&
       p.dest_bbs_index == hex2 (m.bbs_index.getD 0)) = false := by
    intro m _ p hp
    simp [h3 p hp]
  obtain ⟨hp1, hm1, hl1⟩ :=
    handle_nodelist_file_packets hash now game_type s file league hpre hlg
  have ha : (handle_nodelist_file hash now game_type s file).packets =
      s.packets ++ (s.memberships.filter (fun m =>
        m.league_id == league.id && m.is_active)).map
          (nlRowFor (upStr file.1) league.id file.2 (hash file.2) now) := by
    rw [hp1]
    exact nodelist_fold_fresh _ _ _ _ _ _ _ h1 h2 hkey3
  refine ⟨ha, ?_, ?_⟩
  · have e1 : s.packets.filter (fun p => p.filename == upStr file.1) = [] := by
      rw [List.filter_eq_nil_iff]
      intro a haa
      simp [h3 a haa]
    have e2 : ((s.memberships.filter (fun m =>
        m.league_id == league.id && m.is_active)).map
          (nlRowFor (upStr file.1) league.id file.2 (hash file.2) now)).filter
            (fun p => p.filename == upStr file.1) =
        (s.memberships.filter (fun m =>
          m.league_id == league.id && m.is_active)).map
            (nlRowFor (upStr file.1) league.id file.2 (hash file.2) now) := by
      rw [List.filter_eq_self]
      intro a haa
      rcases List.mem_map.mp haa with ⟨m, _, rfl⟩
      simp [nlRowFor]
    rw [ha, List.filter_append, e1, e2, List.nil_append]
  · obtain ⟨hp2, _, _⟩ :=
      handle_nodelist_file_packets hash now2 game_type
        (handle_nodelist_file hash now game_type s file) (file.1, c2) league
        hpre (by rw [hl1]; exact hlg)
    rw [hp2, hm1, ha]
    exact nodelist_fold_update _ _ _ _ _ _ _ _ _ _ h1 h2 hkey3

/-- League 013B with three active members (bbs 2, 3, 5) and no packets. -/
def nlState : HubState :=
  { leagues := [{ id := 3, league_id := "013", game_type := "B" }]
    memberships := [{ client_id := 21, league_id := 3, bbs_index := some 2 },
                    { client_id := 22, league_id := 3, bbs_index := some 3 },
                    { client_id := 23, league_id := 3, bbs_index := some 5 }]
    packets := [], runs := [], runFiles := [], alerts := []
    inboundFiles := [], outboundFiles := [], processedFiles := []
    nodelistFiles := [], nextLeagueId := 4, nextRunId := 1 }

/-- Witness for C4: `BRNODES.013` fanned out to the three members of league
013B, then regenerated with new bytes. -/
theorem c4_witness :
    (handle_nodelist_file demoHash 50 "BRE" nlState ("BRNODES.013", [7, 7])).packets =
      nlState.packets ++ (nlState.memberships.filter (fun m =>
        m.league_id == ({ id := 3, league_id := "013", game_type := "B" } : League).id &&
        m.is_active)).map
          (nlRowFor (upStr "BRNODES.013")
            ({ id := 3, league_id := "013", game_type := "B" } : League).id
            [7, 7] (demoHash [7, 7]) 50) ∧
    (handle_nodelist_file demoHash 50 "BRE" nlState ("BRNODES.013", [7, 7])).packets.filter
        (fun p => p.filename == upStr "BRNODES.013") =
      (nlState.memberships.filter (fun m =>
        m.league_id == ({ id := 3, league_id := "013", game_type := "B" } : League).id &&
        m.is_active)).map
          (nlRowFor (upStr "BRNODES.013")
            ({ id := 3, league_id := "013", game_type := "B" } : League).id
            [7, 7] (demoHash [7, 7]) 50) ∧
    (handle_nodelist_file demoHash 60 "BRE"
        (handle_nodelist_file demoHash 50 "BRE" nlState ("BRNODES.013", [7, 7]))
        ("BRNODES.013", [9])).packets =
      nlState.packets ++ (nlState.memberships.filter (fun m =>
        m.league_id == ({ id := 3, league_id := "013", game_type := "B" } : League).id &&
        m.is_active)).map
          (nlRowFor (upStr "BRNODES.013")
            ({ id := 3, league_id := "013", game_type := "B" } : League).id
            [9] (demoHash [9]) 60) :=
  c4_nodelist_fanout_one_row_per_member demoHash 50 60 "BRE" nlState
    ("BRNODES.013", [7, 7]) [9] { id := 3, league_id := "013", game_type := "B" }
    (by decide) (by decide) (by decide) (by decide) (by decide)

/-! ## C8 / C2 — batch failure semantics -/

/-- On a non-success Command Runner result, `process_game_batch` leaves the
whole hub state untouched (no packet marking, no archive, no outbound
collection, no artifact ingest). -/
theorem process_game_batch_fail_state (hash : List Nat → String) (now : Nat)
    (hub_index game_type : String) (env : SubsetEnv) (subset : List Packet)
    (run_id : Nat) (s : HubState)
    (hfail : env.dosemu.status ≠ "success") :
    (process_game_batch hash now hub_index game_type env subset run_id s).1 = s := by
  unfold process_game_batch
  split
  · rfl
  · split
    · rfl
    · simp [hfail]

/-- C8: when the Command Runner's processing command for a game subset
returns a non-success status, the subset's staged packets do not get
`processed_at` set and every remaining phase is skipped: the hub state is
returned unchanged, the only effect being the already-performed staging
copies into the game inbound directory. -/
theorem c8_runner_failure_marks_nothing_and_skips_phases
    (hash : List Nat → String) (now : Nat) (hub_index game_type : String)
    (env : SubsetEnv) (subset : List Packet) (run_id : Nat) (s : HubState)
    (first : Packet) (rest : List Packet) (league : League)
    (hsub : subset = first :: rest)
    (hlg : s.leagues.find? (fun L => L.id == first.league_id) = some league)
    (hfail : env.dosemu.status ≠ "success") :
    process_game_batch hash now hub_index game_type env subset run_id s =
      (s, { env.dirs with gameInbound :=
              stage_inbound s.inboundFiles subset env.dirs.gameInbound },
       env.dosemu) := by
  subst hsub
  unfold process_game_batch
  dsimp only
  rw [hlg]
  simp [hfail]

/-- The runner environment of the C8 witness: a timeout, with a pending
outbound file that must NOT be collected. -/
def c8Env : SubsetEnv :=
  { dosemu := { status := "timeout", error := some "Processing timed out" }
    dirs := { gameInbound := [], gameOutbound := [("555B0102.001", [3])] }
    scoresDir := [("SCORES.ANS", "x")], gameDir := [] }

/-- The staging-only directory state of the C8 witness. -/
def c8Staged : SubsetDirs :=
  { gameInbound := stage_inbound demoState.inboundFiles [demoPacket] c8Env.dirs.gameInbound
    gameOutbound := c8Env.dirs.gameOutbound }

/-- Witness for C8: a timed-out run of the demo hub's only staged packet. -/
theorem c8_witness :
    process_game_batch demoHash 5 "00" "BRE" c8Env [demoPacket] 1 demoState =
      (demoState, c8Staged, c8Env.dosemu) :=
  c8_runner_failure_marks_nothing_and_skips_phases demoHash 5 "00" "BRE" c8Env
    [demoPacket] 1 demoState demoPacket []
    { id := 1, league_id := "555", game_type := "B" }
    rfl (by decide) (by decide)

/-! Preservation lemmas: every later phase keeps `runs` unchanged and keeps
every row that is still unprocessed an original non-B row. -/

theorem handle_nodelist_file_runs (hash : List Nat → String) (n : Nat)
    (gt : String) (t : HubState) (file : String × List Nat) :
    (handle_nodelist_file hash n gt t file).runs = t.runs := by
  unfold handle_nodelist_file
  dsimp only
  repeat' split
  all_goals rfl

theorem collect_store_runs (hash : List Nat → String) (now run_id : Nat)
    (pi : PacketInfo) (fU : String) (content : List Nat) (league : League)
    (s1 : HubState) :
    (collect_store hash now run_id pi fU content league s1).runs = s1.runs := rfl

theorem collect_one_runs (hash : List Nat → String) (now : Nat)
    (hub_index game_type : String) (run_id : Nat) (s : HubState)
    (file : String × List Nat) :
    (collect_one hash now hub_index game_type run_id s file).1.runs = s.runs := by
  unfold collect_one
  dsimp only
  repeat' split
  all_goals
    first
      | rfl
      | exact handle_nodelist_file_runs _ _ _ _ _
      | exact collect_store_runs _ _ _ _ _ _ _ _

theorem collect_fold_runs (hash : List Nat → String) (now : Nat)
    (hub_index game_type : String) (run_id : Nat) (outDir : Dir) :
    ∀ acc : HubState × Dir,
      (outDir.foldl (fun acc file =>
        let r := collect_one hash now hub_index game_type run_id acc.1 file
        (r.1, if r.2 then acc.2 else acc.2 ++ [file])) acc).1.runs =
        acc.1.runs := by
  induction outDir with
  | nil => intro acc; rfl
  | cons f fs ih =>
    intro acc
    rw [List.foldl_cons]
    rw [ih]
    exact collect_one_runs _ _ _ _ _ _ _

theorem collect_outbound_packets_runs (hash : List Nat → String) (now : Nat)
    (hub_index game_type : String) (run_id : Nat) (s : HubState) (outDir : Dir) :
    (collect_outbound_packets hash now hub_index game_type run_id s outDir).1.runs =
      s.runs := by
  unfold collect_outbound_packets
  exact collect_fold_runs _ _ _ _ _ _ (s, [])

theorem ingest_processing_files_proj (run_id : Nat)
    (scoresDir gameDir : List (String × String)) (s : HubState) :
    (ingest_processing_files run_id scoresDir gameDir s).runs = s.runs ∧
    (ingest_processing_files run_id scoresDir gameDir s).packets = s.packets := by
  unfold ingest_processing_files
  have hfold : ∀ (l : List String) (t : HubState),
      ((l.foldl (fun st fn =>
        match find_file_case_insensitive scoresDir fn with
        | some f => { st with runFiles := st.runFiles ++
            [{ processing_run_id := run_id, file_type := "score", filename := f.1
               file_data := f.2, file_size := f.2.length }] }
        | none => st) t).runs = t.runs ∧
       (l.foldl (fun st fn =>
        match find_file_case_insensitive scoresDir fn with
        | some f => { st with runFiles := st.runFiles ++
            [{ processing_run_id := run_id, file_type := "score", filename := f.1
               file_data := f.2, file_size := f.2.length }] }
        | none => st) t).packets = t.packets) := by
    intro l
    induction l with
    | nil => intro t; exact ⟨rfl, rfl⟩
    | cons fn fns ih =>
      intro t
      rw [List.foldl_cons]
      refine ⟨?_, ?_⟩ <;>
        · rcases ih (match find_file_case_insensitive scoresDir fn with
            | some f => { t with runFiles := t.runFiles ++
                [{ processing_run_id := run_id, file_type := "score", filename := f.1
                   file_data := f.2, file_size := f.2.length }] }
            | none => t) with ⟨ih1, ih2⟩
          first
            | (rw [ih1]; split <;> rfl)
            | (rw [ih2]; split <;> rfl)
  rcases hfold score_filenames s with ⟨h1, h2⟩
  constructor
  · split <;> split <;> simp [h1]
  · split <;> split <;> simp [h2]

theorem updateFirst_singleton_pos (p : α → Bool) (f : α → α) (x : α)
    (h : p x = true) : updateFirst p f [x] = [f x] := by
  unfold updateFirst
  rw [if_pos h]

theorem scan_outbound_folders_runs (hash : List Nat → String) (now : Nat)
    (hub_index : String) (sweepDirs : Nat → Dir) :
    ∀ (Ls : List League) (t : HubState),
      (Ls.foldl (fun st L =>
        let game_type_str := if L.game_type == "B" then "BRE" else "FE"
        let dir := sweepDirs L.id
        if dir.isEmpty then st
        else (collect_outbound_packets hash now hub_index game_type_str 0 st dir).1)
        t).runs = t.runs := by
  intro Ls
  induction Ls with
  | nil => intro t; rfl
  | cons L Ls ih =>
    intro t
    rw [List.foldl_cons, ih]
    dsimp only
    split
    · rfl
    · exact collect_outbound_packets_runs _ _ _ _ _ _ _

theorem scan_runs (hash : List Nat → String) (now : Nat) (hub_index : String)
    (sweepDirs : Nat → Dir) (t : HubState) :
    (scan_outbound_folders hash now hub_index sweepDirs t).runs = t.runs := by
  unfold scan_outbound_folders
  exact scan_outbound_folders_runs hash now hub_index sweepDirs _ t

/-- Every row of `l` that is still unprocessed is an original non-B row of
`base`. -/
def ProcGood (base : HubState) (l : List Packet) : Prop :=
  ∀ q ∈ l, q.processed_at = none →
    q ∈ base.packets ∧ get_game_type base.leagues q ≠ some "B"

theorem procGood_updateFirst (base : HubState) (p : Packet → Bool)
    (f : Packet → Packet) (hf : ∀ x, (f x).processed_at ≠ none)
    (l : List Packet) (h : ProcGood base l) :
    ProcGood base (updateFirst p f l) := by
  intro q hq hqn
  rcases mem_updateFirst p f l q hq with hm | ⟨x, _, rfl⟩
  · exact h q hm hqn
  · exact absurd hqn (hf x)

theorem procGood_append (base : HubState) (l rows : List Packet)
    (hrows : ∀ x ∈ rows, x.processed_at ≠ none) (h : ProcGood base l) :
    ProcGood base (l ++ rows) := by
  intro q hq hqn
  rcases List.mem_append.mp hq with hm | hm
  · exact h q hm hqn
  · exact absurd hqn (hrows q hm)

theorem procGood_nodelistUpsert (base : HubState) (fU : String) (lid : Nat)
    (content : List Nat) (chk : String) (now : Nat) (l : List Packet)
    (m : LeagueMembership) (h : ProcGood base l) :
    ProcGood base (nodelistUpsert fU lid content chk now l m) := by
  unfold nodelistUpsert
  split
  · exact h
  · dsimp only
    split
    · exact procGood_updateFirst base _ _ (fun x => by simp) l h
    · refine procGood_append base l _ (fun x hx => ?_) h
      rw [List.mem_singleton.mp hx]
      simp

theorem procGood_nodelist_fold (base : HubState) (fU : String) (lid : Nat)
    (content : List Nat) (chk : String) (now : Nat)
    (members : List LeagueMembership) :
    ∀ l, ProcGood base l →
      ProcGood base (members.foldl (nodelistUpsert fU lid content chk now) l) := by
  induction members with
  | nil => exact fun l h => h
  | cons m ms ih =>
    exact fun l h => ih _ (procGood_nodelistUpsert base _ _ _ _ _ l m h)

theorem procGood_handle_nodelist (base : HubState) (hash : List Nat → String)
    (n : Nat) (gt : String) (t : HubState) (file : String × List Nat)
    (h : ProcGood base t.packets) :
    ProcGood base (handle_nodelist_file hash n gt t file).packets := by
  unfold handle_nodelist_file
  dsimp only
  repeat' split
  all_goals
    first
      | exact h
      | exact procGood_nodelist_fold base _ _ _ _ _ _ _ h

theorem procGood_collect_store (base : HubState) (hash : List Nat → String)
    (now run_id : Nat) (pi : PacketInfo) (fU : String) (content : List Nat)
    (league : League) (s1 : HubState) (h : ProcGood base s1.packets) :
    ProcGood base (collect_store hash now run_id pi fU content league s1).packets := by
  unfold collect_store
  dsimp only
  split
  · exact procGood_updateFirst base _ _ (fun x => by simp) s1.packets h
  · refine procGood_append base s1.packets _ (fun x hx => ?_) h
    rw [List.mem_singleton.mp hx]
    simp

theorem procGood_collect_one (base : HubState) (hash : List Nat → String)
    (now : Nat) (hub_index game_type : String) (run_id : Nat) (s : HubState)
    (file : String × List Nat) (h : ProcGood base s.packets) :
    ProcGood base (collect_one hash now hub_index game_type run_id s file).1.packets := by
  unfold collect_one
  dsimp only
  repeat' split
  all_goals
    first
      | exact h
      | exact procGood_handle_nodelist base _ _ _ _ _ h
      | exact procGood_collect_store base _ _ _ _ _ _ _ _ h

theorem procGood_collect_fold (base : HubState) (hash : List Nat → String)
    (now : Nat) (hub_index game_type : String) (run_id : Nat) (outDir : Dir) :
    ∀ acc : HubState × Dir, ProcGood base acc.1.packets →
      ProcGood base ((outDir.foldl (fun acc file =>
        let r := collect_one hash now hub_index game_type run_id acc.1 file
        (r.1, if r.2 then acc.2 else acc.2 ++ [file])) acc).1.packets) := by
  induction outDir with
  | nil => exact fun acc h => h
  | cons f fs ih =>
    intro acc h
    rw [List.foldl_cons]
    exact ih _ (procGood_collect_one base _ _ _ _ _ _ _ h)

theorem procGood_collect_outbound (base : HubState) (hash : List Nat → String)
    (now : Nat) (hub_index game_type : String) (run_id : Nat) (s : HubState)
    (outDir : Dir) (h : ProcGood base s.packets) :
    ProcGood base (collect_outbound_packets hash now hub_index game_type run_id
      s outDir).1.packets := by
  unfold collect_outbound_packets
  exact procGood_collect_fold base _ _ _ _ _ _ (s, []) h

theorem procGood_scan_fold (base : HubState) (hash : List Nat → String)
    (now : Nat) (hub_index : String) (sweepDirs : Nat → Dir) :
    ∀ (Ls : List League) (t : HubState), ProcGood base t.packets →
      ProcGood base ((Ls.foldl (fun st L =>
        let game_type_str := if L.game_type == "B" then "BRE" else "FE"
        let dir := sweepDirs L.id
        if dir.isEmpty then st
        else (collect_outbound_packets hash now hub_index game_type_str 0 st dir).1)
        t).packets) := by
  intro Ls
  induction Ls with
  | nil => exact fun t h => h
  | cons L Ls ih =>
    intro t h
    rw [List.foldl_cons]
    refine ih _ ?_
    dsimp only
    split
    · exact h
    · exact procGood_collect_outbound base _ _ _ _ _ _ _ h

theorem procGood_scan (base : HubState) (hash : List Nat → String) (now : Nat)
    (hub_index : String) (sweepDirs : Nat → Dir) (t : HubState)
    (h : ProcGood base t.packets) :
    ProcGood base (scan_outbound_folders hash now hub_index sweepDirs t).packets := by
  unfold scan_outbound_folders
  exact procGood_scan_fold base _ _ _ _ _ t h

theorem close_batch_and_sweep_runs (hash : List Nat → String) (now : Nat)
    (hub_index : String) (sweepDirs : Nat → Dir) (packets : List Packet)
    (outputs : List String) (run_id : Nat) (s3 : HubState) :
    (close_batch_and_sweep hash now hub_index sweepDirs packets outputs run_id
      s3).runs =
    updateFirst (fun r => r.id == run_id)
      (fun r => { r with completed_at := some now
                         packets_processed := packets.length
                         status := "completed"
                         dosemu_log := String.intercalate "\n\n" outputs })
      s3.runs := by
  unfold close_batch_and_sweep
  rw [scan_runs]

theorem close_batch_and_sweep_procGood (base : HubState)
    (hash : List Nat → String) (now : Nat) (hub_index : String)
    (sweepDirs : Nat → Dir) (packets : List Packet) (outputs : List String)
    (run_id : Nat) (s3 : HubState) (h : ProcGood base s3.packets) :
    ProcGood base (close_batch_and_sweep hash now hub_index sweepDirs packets
      outputs run_id s3).packets := by
  unfold close_batch_and_sweep
  exact procGood_scan base _ _ _ _ _ h

/-- The success path of one game subset: `runs` is untouched, and provided
the marked packet table is ProcGood, so is the resulting table (outbound
collection and artifact ingest preserve it). -/
theorem process_game_batch_success_effect (hash : List Nat → String)
    (now : Nat) (hub_index game_type : String) (env : SubsetEnv)
    (subset : List Packet) (run_id : Nat) (s1 : HubState)
    (first : Packet) (rest : List Packet) (league : League)
    (hsub : subset = first :: rest)
    (hlg : s1.leagues.find? (fun L => L.id == first.league_id) = some league)
    (hsucc : env.dosemu.status = "success") :
    (process_game_batch hash now hub_index game_type env subset run_id s1).1.runs =
      s1.runs ∧
    ∀ base, ProcGood base (s1.packets.map (fun p =>
        if p ∈ subset then { p with processed_at := some now } else p)) →
      ProcGood base
        (process_game_batch hash now hub_index game_type env subset run_id
          s1).1.packets := by
  subst hsub
  unfold process_game_batch
  dsimp only
  rw [hlg]
  rw [if_neg (by simp [hsucc])]
  constructor
  · rw [(ingest_processing_files_proj _ _ _ _).1]
    rw [collect_outbound_packets_runs]
  · intro base h
    rw [(ingest_processing_files_proj _ _ _ _).2]
    exact procGood_collect_outbound base _ _ _ _ _ _ _ h

/-- The failing-runner environment used by the C2 counterexample. -/
def c2EnvB : SubsetEnv :=
  { dosemu := { status := "error", error := some "exit code 1" }
    dirs := { gameInbound := [], gameOutbound := [] }
    scoresDir := [], gameDir := [] }

/-- A successful-runner environment with nothing to collect. -/
def c2EnvOk : SubsetEnv :=
  { dosemu := { status := "success", output := "ok" }
    dirs := { gameInbound := [], gameOutbound := [] }
    scoresDir := [], gameDir := [] }

/-- C2 counterexample: a batch whose only subset's Command Runner returns
`status="error"` still closes its ProcessingRun with final status
"completed", not "error" — `process_batch` never inspects the returned
result dict, and the `except` branch that sets "error" is not reached by a
returned failure. -/
theorem c2_counterexample_failed_runner_run_is_completed :
    c2EnvB.dosemu.status ≠ "success" ∧
    (process_batch demoHash 77 "00" c2EnvB c2EnvOk (fun _ => []) demoState).runs.map
      (fun r => r.status) = ["completed"] := by
  decide

/-- C2 (amended): when the Command Runner returns a non-success status for a
game subset, the ProcessingRun is still closed with final status
"completed" (only an escaped exception would mark it "error"), and the
catalog commits of the earlier successful subset are not rolled back: every
packet row left unprocessed is an original non-B row (all B-subset rows keep
their committed `processed_at`). -/
theorem c2_amended_run_completed_commits_kept
    (hash : List Nat → String) (now : Nat) (hub_index : String)
    (envB envF : SubsetEnv) (sweepDirs : Nat → Dir) (s : HubState)
    (hne : (s.packets.filter (fun p => p.processed_at == none)).isEmpty = false)
    (hfe : ((s.packets.filter (fun p => p.processed_at == none)).filter
        (fun p => get_game_type s.leagues p == some "F")).isEmpty = false)
    (hfresh : ∀ r ∈ s.runs, (r.id == s.nextRunId) = false)
    (hB : envB.dosemu.status = "success")
    (hF : envF.dosemu.status ≠ "success") :
    (∃ run : ProcessingRun,
      (process_batch hash now hub_index envB envF sweepDirs s).runs =
        s.runs ++ [run] ∧ run.status = "completed") ∧
    ProcGood s (process_batch hash now hub_index envB envF sweepDirs s).packets := by
  unfold process_batch
  dsimp only
  rw [hne]
  rw [if_neg Bool.false_ne_true]
  by_cases hbe : ((s.packets.filter (fun p => p.processed_at == none)).filter
      (fun p => get_game_type s.leagues p == some "B")).isEmpty = true
  · rw [if_pos hbe]
    rw [hfe]
    rw [if_neg Bool.false_ne_true]
    dsimp only
    rw [process_game_batch_fail_state hash now hub_index "FE" envF _ _ _ hF]
    constructor
    · rw [close_batch_and_sweep_runs]
      dsimp only
      rw [updateFirst_append_left _ _ _ _ hfresh]
      rw [updateFirst_singleton_pos _ _ _ (by simp)]
      exact ⟨_, rfl, rfl⟩
    · apply close_batch_and_sweep_procGood
      intro q hq hqn
      refine ⟨hq, ?_⟩
      intro hgB
      have hq1 : q ∈ s.packets.filter (fun p => p.processed_at == none) :=
        List.mem_filter.mpr ⟨hq, by simp [hqn]⟩
      have hq2 : q ∈ (s.packets.filter (fun p => p.processed_at == none)).filter
          (fun p => get_game_type s.leagues p == some "B") :=
        List.mem_filter.mpr ⟨hq1, by simp [hgB]⟩
      rw [List.isEmpty_iff.mp hbe] at hq2
      exact absurd hq2 (List.not_mem_nil q)
  · rw [if_neg hbe]
    dsimp only
    have hne2 : (s.packets.filter (fun p => p.processed_at == none)).filter
        (fun p => get_game_type s.leagues p == some "B") ≠ [] := by
      intro hh
      exact hbe (by rw [hh]; rfl)
    obtain ⟨first, rest, hfr⟩ := List.exists_cons_of_ne_nil hne2
    have hfmem : first ∈ (s.packets.filter (fun p => p.processed_at == none)).filter
        (fun p => get_game_type s.leagues p == some "B") := by
      rw [hfr]; exact List.mem_cons_self _ _
    have hg : get_game_type s.leagues first = some "B" := by
      have := (List.mem_filter.mp hfmem).2
      exact eq_of_beq this
    unfold get_game_type at hg
    obtain ⟨league, hlg, -⟩ := Option.map_eq_some'.mp hg
    obtain ⟨hruns, hpg⟩ := process_game_batch_success_effect hash now hub_index
      "BRE" envB _ s.nextRunId
      { s with runs := s.runs ++ [{ id := s.nextRunId }]
               nextRunId := s.nextRunId + 1 }
      first rest league hfr hlg hB
    rw [hfe]
    rw [if_neg Bool.false_ne_true]
    dsimp only
    rw [process_game_batch_fail_state hash now hub_index "FE" envF _ _ _ hF]
    constructor
    · rw [close_batch_and_sweep_runs]
      rw [hruns]
      dsimp only
      rw [updateFirst_append_left _ _ _ _ hfresh]
      rw [updateFirst_singleton_pos _ _ _ (by simp)]
      exact ⟨_, rfl, rfl⟩
    · apply close_batch_and_sweep_procGood
      apply hpg s
      intro q hq hqn
      rcases List.mem_map.mp hq with ⟨p, hp, rfl⟩
      by_cases hmem : p ∈ (s.packets.filter (fun p => p.processed_at == none)).filter
          (fun p => get_game_type s.leagues p == some "B")
      · rw [if_pos hmem] at hqn
        simp at hqn
      · rw [if_neg hmem] at hqn ⊢
        refine ⟨hp, ?_⟩
        intro hgB2
        apply hmem
        exact List.mem_filter.mpr
          ⟨List.mem_filter.mpr ⟨hp, by simp [hqn]⟩, by simp [hgB2]⟩

/-- An unprocessed BRE packet for the C2 witness. -/
def c2wB : Packet :=
  { filename := "555B0201.001", league_id := 1, source_bbs_index := "02"
    dest_bbs_index := "01", sequence_number := 1, file_data := [1]
    file_size := 1, checksum := "x", uploaded_at := some 1 }

/-- An unprocessed FE packet for the C2 witness. -/
def c2wF : Packet :=
  { filename := "777F0201.001", league_id := 2, source_bbs_index := "02"
    dest_bbs_index := "01", sequence_number := 1, file_data := [2]
    file_size := 1, checksum := "y", uploaded_at := some 2 }

/-- A hub with one BRE league, one FE league, and one unprocessed packet in
each. -/
def c2wState : HubState :=
  { leagues := [{ id := 1, league_id := "555", game_type := "B" },
                { id := 2, league_id := "777", game_type := "F" }]
    memberships := [], packets := [c2wB, c2wF]
    runs := [], runFiles := [], alerts := []
    inboundFiles := [], outboundFiles := [], processedFiles := []
    nodelistFiles := [], nextLeagueId := 3, nextRunId := 1 }

/-- Witness for C2 (amended): BRE succeeds, FE times out; the run closes as
"completed" and the BRE commit survives. -/
theorem c2_amended_witness :
    (∃ run : ProcessingRun,
      (process_batch demoHash 9 "00" c2EnvOk c2EnvB (fun _ => []) c2wState).runs =
        c2wState.runs ++ [run] ∧ run.status = "completed") ∧
    ProcGood c2wState
      (process_batch demoHash 9 "00" c2EnvOk c2EnvB (fun _ => []) c2wState).packets :=
  c2_amended_run_completed_commits_kept demoHash 9 "00" c2EnvOk c2EnvB
    (fun _ => []) c2wState (by decide) (by decide)
    (by intro r hr; exact absurd hr (List.not_mem_nil r)) (by decide) (by decide)
end NovaHub
